import Mathlib

/-!
# SecureWorkspace: a shallow embedding of `secure_workspace.py`

This file models the snapshot / diff / restore engine of the SecureWorkspace
repository (`src/secure_workspace.py`, with `start_session.py` and
`stop_session.py` being near-identical copies of the `start`/`stop` methods)
and proves or refutes the frozen claims about it.

Modelling conventions:
* A filesystem is a finite association list from absolute path strings to
  `Option String`: `some c` is a readable regular file with byte content `c`,
  `none` is a regular file that exists but cannot be read (permission error).
  Existing directories are a separate list (only `os.path.exists` consults it).
* `Path(path).resolve()` is an OS call (symlinks, mounts); it is carried as an
  abstract parameter `norm : String → String` (`_normalize_path` returns the
  raw path when resolution fails, so the function is total).
* `hashlib.sha256(...).hexdigest()` is the external fingerprinter; it is
  carried as an abstract parameter `H : String → String` applied to the file
  content.  `_calculate_file_hash` returns the sentinel `""` on read failure.
* The `find ~ -type f` enumeration and all injected I/O failures (disk full,
  permission) are parameters: `enumeration : Option (List String)` is the
  `find` output (or its failure), and per-path Boolean functions say which
  individual `os.makedirs` / `shutil.copy2` / `os.remove` calls raise
  `OSError`.
* Python exceptions that the code does NOT catch are modelled with `Except`:
  an `Except.error` result is an exception escaping the translated function.
* Python string primitives (`split`, `lower`, `strip`, `startswith`,
  `endswith`, `in`, `os.path.relpath`) are re-implemented below by structural
  recursion on `List Char` so that every definition evaluates inside the
  kernel (ASCII inputs; the source only ever feeds them filesystem paths).
-/

/-- Is `pre` a prefix of `l` (Python `startswith` on character lists)? -/
def isPrefixL : List Char → List Char → Bool
  | [], _ => true
  | _ :: _, [] => false
  | a :: as, b :: bs => a == b && isPrefixL as bs

/-- Does `l` contain `needle` as a contiguous sublist (Python `needle in s`)? -/
def containsSubL (needle : List Char) : List Char → Bool
  | [] => isPrefixL needle []
  | c :: rest => isPrefixL needle (c :: rest) || containsSubL needle rest

/-- Split on a single separator character; like Python `s.split(sep)`,
always returns at least one (possibly empty) part. -/
def splitOnCharL (sep : Char) : List Char → List (List Char)
  | [] => [[]]
  | c :: rest =>
    if c == sep then [] :: splitOnCharL sep rest
    else
      match splitOnCharL sep rest with
      | [] => [[c]]
      | cur :: parts => (c :: cur) :: parts

/-- ASCII lower-casing of one character (Python `str.lower` on paths). -/
def chLower (c : Char) : Char :=
  if 'A' ≤ c && c ≤ 'Z' then Char.ofNat (c.toNat + 32) else c

/-- Python `str.strip` whitespace test (ASCII whitespace). -/
def isPySpace (c : Char) : Bool :=
  c == ' ' || c == '\t' || c == '\n' || c == '\r' || c == '\x0b' || c == '\x0c'

/-- Join character lists with a separator character. -/
def joinSepL (sep : Char) : List (List Char) → List Char
  | [] => []
  | [x] => x
  | x :: rest => x ++ sep :: joinSepL sep rest

/-- Python `s.split(sep)` for a one-character separator, on `String`. -/
def pySplitChar (sep : Char) (s : String) : List String :=
  (splitOnCharL sep s.toList).map fun l => ⟨l⟩

/-- Python `s.lower()` (ASCII). -/
def pyLower (s : String) : String :=
  ⟨s.toList.map chLower⟩

/-- Python `s.strip()`. -/
def pyStrip (s : String) : String :=
  ⟨((s.toList.dropWhile isPySpace).reverse.dropWhile isPySpace).reverse⟩

/-- Python `s.startswith(pre)`. -/
def pyStartsWith (s pre : String) : Bool :=
  isPrefixL pre.toList s.toList

/-- Python `s.endswith(suf)`. -/
def pyEndsWith (s suf : String) : Bool :=
  isPrefixL suf.toList.reverse s.toList.reverse

/-- Python `needle in hay` (substring containment). -/
def pyContains (hay needle : String) : Bool :=
  containsSubL needle.toList hay.toList

/-- Python exceptions distinguished by the model (only the classes whose
caught/uncaught status matters to the claims). -/
inductive PyErr where
  | osError
  | typeError
  | keyError
deriving DecidableEq

/-- A filesystem snapshot: regular files (with `some` content when readable,
`none` when present but unreadable) and existing directories. -/
structure FileSys where
  files : List (String × Option String)
  dirs : List String
deriving DecidableEq

/-- The entry for path `p`: `none` = no such regular file, `some oc` = a
regular file whose readable content is `oc`. -/
def fsEntry (fs : FileSys) (p : String) : Option (Option String) :=
  (fs.files.find? (fun e => e.1 == p)).map Prod.snd

/-- Model of `os.path.isfile p`. -/
def isfile (fs : FileSys) (p : String) : Bool :=
  (fsEntry fs p).isSome

/-- Reading a file's bytes: `none` when the file is absent or unreadable. -/
def readFile (fs : FileSys) (p : String) : Option String :=
  (fsEntry fs p).bind id

/-- Model of `os.path.exists p` (true for files and directories). -/
def pexists (fs : FileSys) (p : String) : Bool :=
  isfile fs p || fs.dirs.contains p

/-- Overwrite-or-create on the file list (first-match form; file lists never
hold duplicate paths). -/
def setEntries : List (String × Option String) → String → String →
    List (String × Option String)
  | [], p, c => [(p, some c)]
  | e :: rest, p, c => if e.1 == p then (p, some c) :: rest else e :: setEntries rest p c

/-- Write content `c` at path `p` (what a successful `shutil.copy2 _ p` does). -/
def setFile (fs : FileSys) (p : String) (c : String) : FileSys :=
  { fs with files := setEntries fs.files p c }

/-- Remove the regular file at path `p` (what a successful `os.remove p` does). -/
def deleteFile (fs : FileSys) (p : String) : FileSys :=
  { fs with files := fs.files.filter (fun e => !(e.1 == p)) }

/-- First-match association-list lookup (Python `dict` subscript / `in`). -/
def lookupStr : List (String × String) → String → Option String
  | [], _ => none
  | (k, v) :: rest, key => if k == key then some v else lookupStr rest key

/-- Python `dict` assignment `d[k] = v`: update in place if the key exists,
append otherwise (insertion order preserved).  Recursive first-match form;
it agrees with Python because a Python dict never holds duplicate keys and
every dict in this model is built from `[]` by `dictInsert` alone. -/
def dictInsert : List (String × String) → String → String → List (String × String)
  | [], k, v => [(k, v)]
  | e :: rest, k, v => if e.1 == k then (k, v) :: rest else e :: dictInsert rest k v

/-- Component collapse of `posixpath.normpath` for absolute paths: drop `.`,
resolve `..` against the accumulated components (at the root `..` vanishes). -/
def collapseParts : List String → List String → List String
  | acc, [] => acc.reverse
  | acc, "." :: rest => collapseParts acc rest
  | acc, ".." :: rest => collapseParts (acc.drop 1) rest
  | acc, c :: rest => collapseParts (c :: acc) rest

/-- The normalized component list of an absolute path (what
`os.path.abspath` produces before `relpath` compares component lists). -/
def absParts (p : String) : List String :=
  collapseParts [] ((pySplitChar '/' p).filter (fun s => s != ""))

/-- Length of the common prefix of two component lists. -/
def commonPrefixLen : List String → List String → Nat
  | a :: as, b :: bs => if a == b then commonPrefixLen as bs + 1 else 0
  | _, _ => 0

/-- Model of `os.path.relpath p home` for absolute POSIX paths, as CPython computes it:
normalize both, drop the common component prefix, pad with `..`. -/
def relpath (home p : String) : String :=
  let hl := absParts home
  let pl := absParts p
  let i := commonPrefixLen hl pl
  let parts := List.replicate (hl.length - i) ".." ++ pl.drop i
  if parts.isEmpty then "." else ⟨joinSepL '/' (parts.map String.toList)⟩

/-- The list `SecureWorkspace.EXCLUDED_PATHS` (source line 18). -/
def EXCLUDED_PATHS : List String :=
  ["/proc", "/sys", "/dev", "/run", "/tmp", "/var/log"]

/-- The list `SecureWorkspace.EXCLUDED_PATTERNS` (source lines 19-48). -/
def EXCLUDED_PATTERNS : List String :=
  [".git", ".svn", ".hg",
   "__pycache__", ".pyc", ".pyo", ".pyd", ".pytest_cache", ".coverage", ".eggs",
   "node_modules", "npm-debug.log", "yarn-debug.log", "yarn-error.log",
   ".idea", ".vscode", ".vs", "*.swp", "*.swo", ".DS_Store", "Thumbs.db",
   "build", "dist", "*.egg-info",
   ".secure_workspace_state",
   "SingletonSocket", ".Xauthority", ".X11-unix", ".cache",
   ".local/share/Trash", ".mozilla/firefox/*.default/Cache",
   ".npm", ".yarn", ".pip", ".gradle", ".m2",
   "Cache", "CacheStorage", ".config/google-chrome/Default/Cache",
   ".config/chromium/Default/Cache", ".mozilla/firefox/*.default/cache2"]

/-- One iteration of the `for pattern in self.EXCLUDED_PATTERNS` loop of
`_should_track_file`: does this pattern reject the (lowered) path?  Patterns
containing `*` reject only via the dotted-`Cache`-component test (and on the
lowered components `part.endswith('Cache')` can never hold); other patterns
reject on exact component membership, and dotted patterns also on lowered
substring containment. -/
def patternRejects (pat : String) (pathLower : String) (comps : List String) : Bool :=
  if pyContains pat "*" then
    comps.any (fun part => pyStartsWith part "." && pyEndsWith part "Cache")
  else
    comps.contains pat || (pyStartsWith pat "." && pyContains pathLower (pyLower pat))

/-- Translation of `SecureWorkspace._should_track_file` (source lines 68-98).  The dead
`rel_path = os.path.relpath(...)` assignment (line 77) is omitted: its value
is never used. -/
def shouldTrackFile (norm : String → String) (home : String) (fs : FileSys)
    (path0 : String) : Bool :=
  let path := norm path0
  if EXCLUDED_PATHS.any (fun ex => pyStartsWith path ex) then false
  else
    let pl := pyLower path
    let comps := pySplitChar '/' pl
    if EXCLUDED_PATTERNS.any (fun pat => patternRejects pat pl comps) then false
    else if !(pyStartsWith path home) then false
    else isfile fs path

/-- Translation of `SecureWorkspace._calculate_file_hash` (source lines 100-105): sha256 of
the content on success, the sentinel `""` when `open`/`read` raises. -/
def calculateFileHash (H : String → String) (fs : FileSys) (p : String) : String :=
  match readFile fs p with
  | some c => H c
  | none => ""

example : relpath "/home/user" "/home/user/notes.txt" = "notes.txt" := by decide
example : relpath "/home/user" "/home/userfoo/f" = "../userfoo/f" := by decide
example : relpath "/home/user" "/home/user/a/b.c" = "a/b.c" := by decide
example : pyContains "/home/u/x.git/f" ".git" = true := by decide
example : pyContains "abc" "*" = false := by decide
example : shouldTrackFile (fun s => s) "/home/user"
    ⟨[("/home/user/notes.txt", some "A")], ["/home/user"]⟩ "/home/user/notes.txt" = true := by
  decide
example : shouldTrackFile (fun s => s) "/home/user"
    ⟨[("/tmpdata/file", some "A")], ["/"]⟩ "/tmpdata/file" = false := by decide
example : shouldTrackFile (fun s => s) "/home/user"
    ⟨[("/home/user/a/.git/c", some "A")], ["/home/user"]⟩ "/home/user/a/.git/c" = false := by
  decide

/-- Accumulator of `SecureWorkspace.start`'s tracking loop: the snapshot map
`original_state`, the lazily created backup directory, the backup entries
keyed by path relative to the home directory, and the tracked-file count. -/
structure TrackAcc where
  originalState : List (String × String)
  backupPath : Option String
  backupEntries : List (String × String)
  tracked : Nat
deriving DecidableEq

/-- Translation of `SecureWorkspace._backup_file` (source lines 107-118).  The backup root is
created lazily (`tempfile.mkdtemp`, modelled by the fresh name `tmpdir`).
`os.makedirs` (line 114) sits OUTSIDE the `try`, so its failure raises
`OSError` out of the function; a `shutil.copy2` failure (including an
unreadable source file) is caught and swallowed. -/
def backupFile (home tmpdir : String) (mkdirFail copyFail : String → Bool)
    (fs : FileSys) (acc : TrackAcc) (filepath : String) : Except PyErr TrackAcc :=
  let acc := if acc.backupPath.isNone then { acc with backupPath := some tmpdir } else acc
  let rel := relpath home filepath
  if mkdirFail filepath then Except.error PyErr.osError
  else if copyFail filepath then Except.ok acc
  else
    match readFile fs filepath with
    | none => Except.ok acc
    | some c => Except.ok { acc with backupEntries := dictInsert acc.backupEntries rel c }

/-- The `for filepath in files` loop of `SecureWorkspace.start`
(source lines 134-139): filter, fingerprint, back up, count. -/
def trackLoop (norm H : String → String) (home tmpdir : String)
    (mkdirFail copyFail : String → Bool) (fs : FileSys) :
    List String → TrackAcc → Except PyErr TrackAcc
  | [], acc => Except.ok acc
  | f :: rest, acc =>
    if shouldTrackFile norm home fs f then
      let np := norm f
      let acc1 := { acc with
        originalState := dictInsert acc.originalState np (calculateFileHash H fs np) }
      match backupFile home tmpdir mkdirFail copyFail fs acc1 np with
      | Except.error e => Except.error e
      | Except.ok acc2 =>
        trackLoop norm H home tmpdir mkdirFail copyFail fs rest
          { acc2 with tracked := acc2.tracked + 1 }
    else trackLoop norm H home tmpdir mkdirFail copyFail fs rest acc

/-- Result of `SecureWorkspace.start`: its boolean return value, the in-memory
state, and `savedState` = the `(backup_path, original_state)` record written
to the well-known state file (`none` when nothing was written). -/
structure StartResult where
  ok : Bool
  tracked : Nat
  originalState : List (String × String)
  backupPath : Option String
  backupEntries : List (String × String)
  savedState : Option (Option String × List (String × String))
deriving DecidableEq

/-- Translation of `SecureWorkspace.start` (source lines 120-150).  `enumeration` is the
outcome of the injected `find ~ -type f` run: `none` models
`subprocess.SubprocessError` (caught: the method returns `False` having
touched nothing), `some files` its line output.  The state-file write itself
is assumed to succeed (its failure is not claimed anywhere). -/
def start (norm H : String → String) (home tmpdir : String)
    (mkdirFail copyFail : String → Bool) (fs : FileSys)
    (enumeration : Option (List String)) : Except PyErr StartResult :=
  match enumeration with
  | none =>
    Except.ok
      { ok := false,
        tracked := 0,
        originalState := [],
        backupPath := none,
        backupEntries := [],
        savedState := none }
  | some files =>
    match trackLoop norm H home tmpdir mkdirFail copyFail fs files ⟨[], none, [], 0⟩ with
    | Except.error e => Except.error e
    | Except.ok acc =>
      Except.ok
        { ok := true,
          tracked := acc.tracked,
          originalState := acc.originalState,
          backupPath := acc.backupPath,
          backupEntries := acc.backupEntries,
          savedState := some (acc.backupPath, acc.originalState) }

/-- What `stop` finds when loading the persisted state file (source lines
195-202): `ioError` = `open`/read raised `OSError` (caught, return `False`);
`parseError` = `json.load` raised `JSONDecodeError` (caught, return `False`);
`missingField` = the JSON parsed but `saved_state['backup_path']` or
`saved_state['original_state']` raises (`KeyError` on a dict without the key,
`TypeError` on a non-dict) — neither is in the `except` clause, so it
escapes; `okState` = both fields extracted. -/
inductive LoadResult where
  | ioError
  | parseError
  | missingField
  | okState (backupPath : Option String) (snapshot : List (String × String))
deriving DecidableEq

/-- Observable outcome of a `SecureWorkspace.stop` run that returned (rather
than raised): its boolean return value, the classified change lists, whether
the preservation prompt phase ran, the preserved set, the three apply
counters, the resulting filesystem, which cleanup deletions were attempted
and succeeded, and whether the summary printed
"No changes detected - workspace is clean". -/
structure StopOutcome where
  ok : Bool
  newList : List String
  modifiedList : List String
  deletedList : List String
  promptShown : Bool
  preserved : List String
  removed : Nat
  reverted : Nat
  restored : Nat
  fsAfter : FileSys
  stateRemoveAttempted : Bool
  stateRemoved : Bool
  backupRemoveAttempted : Bool
  backupRemoved : Bool
  noChangesReported : Bool
deriving DecidableEq

/-- The outcome of a `stop` run that returned `False` before classifying:
nothing listed, nothing touched, no cleanup attempted, no summary printed. -/
def stopFailOutcome (fs : FileSys) : StopOutcome :=
  { ok := false,
    newList := [],
    modifiedList := [],
    deletedList := [],
    promptShown := false,
    preserved := [],
    removed := 0,
    reverted := 0,
    restored := 0,
    fsAfter := fs,
    stateRemoveAttempted := false,
    stateRemoved := false,
    backupRemoveAttempted := false,
    backupRemoved := false,
    noChangesReported := false }

/-- The deleted-files scan of `stop` (source lines 223-226): every snapshot
key that no longer exists, as a path relative to home, in snapshot order. -/
def classifyDeleted (home : String) (fs : FileSys)
    (snap : List (String × String)) : List String :=
  (snap.filter (fun e => !(pexists fs e.1))).map (fun e => relpath home e.1)

/-- The new/modified scan of `stop` (source lines 229-245): walk the current
files, skip untracked ones, a normalized path absent from the snapshot is
new, one whose current hash differs from the recorded hash is modified. -/
def classifyNewMod (norm H : String → String) (home : String) (fs : FileSys)
    (snap : List (String × String)) : List String → List String × List String
  | [] => ([], [])
  | f :: rest =>
    let (ns, ms) := classifyNewMod norm H home fs snap rest
    if shouldTrackFile norm home fs f then
      let np := norm f
      match lookupStr snap np with
      | none => (relpath home np :: ns, ms)
      | some oh =>
        if calculateFileHash H fs np == oh then (ns, ms)
        else (ns, relpath home np :: ms)
    else (ns, ms)

/-- The deleted-files apply loop of `stop` (source lines 265-275), threading
the filesystem: for each snapshot key that does not exist and was not
preserved, `os.path.join(backup_path, rel)` is computed OUTSIDE the `try`
(raising `TypeError` if `backup_path` is `None`), then
`os.makedirs` + `shutil.copy2` restore the backup copy; any `OSError` in the
`try` (including a missing backup entry) is swallowed.  `restoreFail k`
injects such an `OSError` for key `k`. -/
def applyDeleted (home : String) (bp : Option String)
    (backupFiles : List (String × String)) (preserved : List String)
    (restoreFail : String → Bool) :
    List (String × String) → FileSys → Nat → Except (PyErr × FileSys) (FileSys × Nat)
  | [], fs, n => Except.ok (fs, n)
  | e :: rest, fs, n =>
    if pexists fs e.1 then applyDeleted home bp backupFiles preserved restoreFail rest fs n
    else
      let rel := relpath home e.1
      if preserved.contains rel then
        applyDeleted home bp backupFiles preserved restoreFail rest fs n
      else
        match bp with
        | none => Except.error (PyErr.typeError, fs)
        | some _ =>
          if restoreFail e.1 then
            applyDeleted home bp backupFiles preserved restoreFail rest fs n
          else
            match lookupStr backupFiles rel with
            | none => applyDeleted home bp backupFiles preserved restoreFail rest fs n
            | some c =>
              applyDeleted home bp backupFiles preserved restoreFail rest
                (setFile fs e.1 c) (n + 1)

/-- The new/modified apply loop of `stop` (source lines 278-304), threading
the filesystem: untracked current files are skipped; a path absent from the
snapshot is removed unless preserved (`os.remove`, `OSError` swallowed —
`removeFail`); a path whose current hash differs is overwritten with its
backup copy unless preserved (`os.path.join` outside the `try` raises
`TypeError` on a `None` backup path; `shutil.copy2` failures, including a
missing backup entry, are swallowed — `revertFail`). -/
def applyNewMod (norm H : String → String) (home : String) (bp : Option String)
    (backupFiles : List (String × String)) (snap : List (String × String))
    (preserved : List String) (removeFail revertFail : String → Bool) :
    List String → FileSys → Nat → Nat → Except (PyErr × FileSys) (FileSys × Nat × Nat)
  | [], fs, rem, rev => Except.ok (fs, rem, rev)
  | f :: rest, fs, rem, rev =>
    if shouldTrackFile norm home fs f then
      let np := norm f
      let rel := relpath home np
      match lookupStr snap np with
      | none =>
        if preserved.contains rel then
          applyNewMod norm H home bp backupFiles snap preserved removeFail revertFail
            rest fs rem rev
        else if removeFail np then
          applyNewMod norm H home bp backupFiles snap preserved removeFail revertFail
            rest fs rem rev
        else
          applyNewMod norm H home bp backupFiles snap preserved removeFail revertFail
            rest (deleteFile fs np) (rem + 1) rev
      | some oh =>
        if calculateFileHash H fs np == oh then
          applyNewMod norm H home bp backupFiles snap preserved removeFail revertFail
            rest fs rem rev
        else if preserved.contains rel then
          applyNewMod norm H home bp backupFiles snap preserved removeFail revertFail
            rest fs rem rev
        else
          match bp with
          | none => Except.error (PyErr.typeError, fs)
          | some _ =>
            if revertFail np then
              applyNewMod norm H home bp backupFiles snap preserved removeFail revertFail
                rest fs rem rev
            else
              match lookupStr backupFiles rel with
              | none =>
                applyNewMod norm H home bp backupFiles snap preserved removeFail revertFail
                  rest fs rem rev
              | some c =>
                applyNewMod norm H home bp backupFiles snap preserved removeFail revertFail
                  rest (setFile fs np c) rem (rev + 1)
    else
      applyNewMod norm H home bp backupFiles snap preserved removeFail revertFail
        rest fs rem rev

/-- The apply + cleanup + summary tail of `SecureWorkspace.stop` (source
lines 263-334), after the change lists and the preserved set have been
computed: run the deleted-files loop and the new/modified loop over the
threaded filesystem, then the cleanup `try` block, then assemble the
summary.

Cleanup (source lines 306-311) is ONE `try` block: `os.remove(STATE_FILE)`
first, `shutil.rmtree(backup_path)` second, `except OSError: pass` — so a
state-file removal failure skips the rmtree, and `rmtree(None)` (no file was
ever backed up) raises an uncaught `TypeError`.  The summary (lines 313-334)
prints only after cleanup. -/
def stopApply (norm H : String → String) (home : String) (fs : FileSys)
    (backupFiles : List (String × String)) (bp : Option String)
    (snap : List (String × String)) (currentFiles : List String)
    (newL modL delL preserved : List String)
    (restoreFail removeFail revertFail : String → Bool)
    (stateRemoveFail rmtreeFail : Bool) : Except (PyErr × FileSys) StopOutcome :=
  let anyChange := !(newL.isEmpty && modL.isEmpty && delL.isEmpty)
  match applyDeleted home bp backupFiles preserved restoreFail snap fs 0 with
  | Except.error e => Except.error e
  | Except.ok (fs1, restored) =>
    match applyNewMod norm H home bp backupFiles snap preserved removeFail revertFail
        currentFiles fs1 0 0 with
    | Except.error e => Except.error e
    | Except.ok (fs2, removed, reverted) =>
      let noChanges :=
        preserved.isEmpty && removed == 0 && reverted == 0 && restored == 0
      if stateRemoveFail then
            Except.ok
              { ok := true,
                newList := newL,
                modifiedList := modL,
                deletedList := delL,
                promptShown := anyChange,
                preserved := preserved,
                removed := removed,
                reverted := reverted,
                restored := restored,
                fsAfter := fs2,
                stateRemoveAttempted := true,
                stateRemoved := false,
                backupRemoveAttempted := false,
                backupRemoved := false,
                noChangesReported := noChanges }
          else
            match bp with
            | none => Except.error (PyErr.typeError, fs2)
            | some _ =>
              Except.ok
                { ok := true,
                  newList := newL,
                  modifiedList := modL,
                  deletedList := delL,
                  promptShown := anyChange,
                  preserved := preserved,
                  removed := removed,
                  reverted := reverted,
                  restored := restored,
                  fsAfter := fs2,
                  stateRemoveAttempted := true,
                  stateRemoved := true,
                  backupRemoveAttempted := true,
                  backupRemoved := !rmtreeFail,
                  noChangesReported := noChanges }

/-- Translation of `SecureWorkspace.stop` (source lines 191-334).

Parameters mirror the injected environment: `backupFiles` are the backup
directory's entries keyed by home-relative path; `load` is the state-file
load outcome; `enumeration` the `find` run at stop time (its lines form
`current_files`; Python then builds a `set`, which only removes duplicates —
pass a duplicate-free list); `decideNew`/`decideMod`/`decideDel` are the
interactive `_ask_for_preservation` results for each non-empty category
(called only for non-empty lists, exactly as in the source);
`restoreFail`/`removeFail`/`revertFail` inject per-file `OSError`s in the
apply loops, `stateRemoveFail`/`rmtreeFail` in the cleanup block.  After
loading and classifying, the work is delegated to `stopApply`. -/
def stop (norm H : String → String) (home : String) (fs : FileSys)
    (backupFiles : List (String × String)) (load : LoadResult)
    (enumeration : Option (List String))
    (decideNew decideMod decideDel : List String → List String)
    (restoreFail removeFail revertFail : String → Bool)
    (stateRemoveFail rmtreeFail : Bool) : Except (PyErr × FileSys) StopOutcome :=
  match load with
  | LoadResult.ioError => Except.ok (stopFailOutcome fs)
  | LoadResult.parseError => Except.ok (stopFailOutcome fs)
  | LoadResult.missingField => Except.error (PyErr.keyError, fs)
  | LoadResult.okState bp snap =>
    match enumeration with
    | none => Except.ok (stopFailOutcome fs)
    | some currentFiles =>
      let delL := classifyDeleted home fs snap
      let (newL, modL) := classifyNewMod norm H home fs snap currentFiles
      let preserved :=
        (if newL.isEmpty then [] else decideNew newL) ++
        (if modL.isEmpty then [] else decideMod modL) ++
        (if delL.isEmpty then [] else decideDel delL)
      stopApply norm H home fs backupFiles bp snap currentFiles newL modL delL preserved
        restoreFail removeFail revertFail stateRemoveFail rmtreeFail

/-- A digit run as Python `int()` accepts it after the optional sign:
nonempty, decimal digits, single underscores only between digits. -/
def pyDigitRun : List Char → Bool
  | [] => false
  | [c] => c.isDigit
  | c :: '_' :: rest => c.isDigit && pyDigitRun rest
  | c :: c2 :: rest => c.isDigit && pyDigitRun (c2 :: rest)

/-- Numeric value of a digit run, skipping the grouping underscores. -/
def digitsVal (l : List Char) : Nat :=
  l.foldl (fun acc c => if c == '_' then acc else acc * 10 + (c.toNat - 48)) 0

/-- Python `int(s)` for decimal strings: strip whitespace, optional single
sign, digit run; `none` models the `ValueError` it raises otherwise.
(Unicode digits are out of scope: the prompt input is terminal ASCII.) -/
def pyInt (s : String) : Option Int :=
  let cs := (pyStrip s).toList
  match cs with
  | '+' :: rest => if pyDigitRun rest then some (digitsVal rest : Int) else none
  | '-' :: rest => if pyDigitRun rest then some (-(digitsVal rest : Int)) else none
  | rest => if pyDigitRun rest then some (digitsVal rest : Int) else none

/-- The list comprehension `[int(x.strip()) for x in choice.split(',')]`
(source line 180): all tokens must parse or the whole line raises
`ValueError` before `selections` is assigned — an all-or-nothing parse. -/
def parseSelections : List String → Option (List Int)
  | [] => some []
  | x :: rest =>
    match pyInt x, parseSelections rest with
    | some n, some ns => some (n :: ns)
    | _, _ => none

/-- Add an element to the model of a Python `set` of strings. -/
def insertUnique (l : List String) (x : String) : List String :=
  if l.contains x then l else l ++ [x]

/-- Model of `preserved.update(files)` on the set model. -/
def unionUnique (l xs : List String) : List String :=
  xs.foldl insertUnique l

/-- Result of one iteration of `_ask_for_preservation`'s `while True` loop:
the preserved set afterwards, whether the loop terminated (`break`), and
whether the "Invalid input" message was printed for a `ValueError`. -/
structure AskStep where
  preserved : List String
  done : Bool
  invalidReported : Bool
deriving DecidableEq

/-- One iteration of the `while True` loop of
`SecureWorkspace._ask_for_preservation` (source lines 163-187), given the
raw input line: lower-case and strip it; `q`/`all`/`none` terminate; any
other line is parsed as comma-separated integers all at once — if any token
fails, `ValueError` is caught, the invalid-input message printed, nothing
selected, and the loop repeats; if all parse, each in-range index adds its
file (out-of-range numbers are reported and ignored) and the loop repeats. -/
def askStep (files preserved : List String) (line : String) : AskStep :=
  let choice := pyStrip (pyLower line)
  if choice == "q" then ⟨preserved, true, false⟩
  else if choice == "all" then ⟨unionUnique preserved files, true, false⟩
  else if choice == "none" then ⟨preserved, true, false⟩
  else
    match parseSelections (pySplitChar ',' choice) with
    | none => ⟨preserved, false, true⟩
    | some sels =>
      ⟨sels.foldl
        (fun acc num =>
          if 1 ≤ num && num ≤ (files.length : Int) then
            insertUnique acc (files.getD (num - 1).toNat "")
          else acc)
        preserved, false, false⟩

example : pyInt " 12 " = some 12 := by decide
example : pyInt "1_0" = some 10 := by decide
example : pyInt "-3" = some (-3) := by decide
example : pyInt "" = none := by decide
example : pyInt "x" = none := by decide
example : pyInt "1_" = none := by decide
example : pyInt "+-1" = none := by decide
example : askStep ["a", "b", "c"] [] "1, 3" = ⟨["a", "c"], false, false⟩ := by decide
example : askStep ["a", "b"] ["z"] "1,x" = ⟨["z"], false, true⟩ := by decide
example : askStep ["a", "b"] [] "ALL" = ⟨["a", "b"], true, false⟩ := by decide
example : askStep ["a", "b"] ["a"] " q " = ⟨["a"], true, false⟩ := by decide
example : askStep ["a", "b"] [] "0,2" = ⟨["b"], false, false⟩ := by decide

/-- If a line's tokens contain one that fails `pyInt`, the whole
comprehension fails (the `ValueError` aborts it before any selection). -/
theorem parseSelections_eq_none_of_mem {t : String} :
    ∀ {l : List String}, t ∈ l → pyInt t = none → parseSelections l = none := by
  intro l
  induction l with
  | nil => intro h; cases h
  | cons x rest ih =>
    intro hmem hbad
    unfold parseSelections
    rcases List.mem_cons.mp hmem with h | h
    · subst h
      rw [hbad]
    · rw [ih h hbad]
      cases pyInt x <;> rfl

/-- Claim C9: an input line to the preservation prompt that is not `q`,
`all` or `none` and has at least one comma-separated token that `int()`
rejects selects nothing at all — even if other tokens are valid in-range
indices — reports the input as invalid, and repeats the loop; the preserved
set is never partially updated by such a line. -/
theorem c9_malformed_line_atomic (files preserved : List String) (line : String)
    (hq : pyStrip (pyLower line) ≠ "q") (hall : pyStrip (pyLower line) ≠ "all")
    (hnone : pyStrip (pyLower line) ≠ "none") (t : String)
    (ht : t ∈ pySplitChar ',' (pyStrip (pyLower line))) (hbad : pyInt t = none) :
    askStep files preserved line = ⟨preserved, false, true⟩ := by
  unfold askStep
  rw [if_neg (by simpa using hq), if_neg (by simpa using hall),
    if_neg (by simpa using hnone), parseSelections_eq_none_of_mem ht hbad]

/-- Claim C9 witness: the line `1,x` against two listed files selects
nothing (index 1 included), reports invalid input, and loops. -/
theorem c9_malformed_line_atomic_witness :
    askStep ["a", "b"] [] "1,x" = ⟨[], false, true⟩ :=
  c9_malformed_line_atomic ["a", "b"] [] "1,x" (by decide) (by decide) (by decide)
    "x" (by decide) (by decide)

/-- Claim C6: if the `find` enumeration cannot run at `begin()` time, the
operation returns failure and is fully inert — no state file written
(`savedState = none`), no backup directory created, no snapshot entries. -/
theorem c6_begin_enumeration_failure_inert (norm H : String → String)
    (home tmpdir : String) (mkdirFail copyFail : String → Bool) (fs : FileSys) :
    start norm H home tmpdir mkdirFail copyFail fs none =
      Except.ok
        { ok := false,
          tracked := 0,
          originalState := [],
          backupPath := none,
          backupEntries := [],
          savedState := none } := rfl

/-- Claim C5 counterexample: a state file whose JSON parses but lacks the
expected fields (e.g. content `{}`) makes `stop` RAISE an uncaught
`KeyError` from `saved_state['backup_path']` instead of returning failure —
`OSError` and `json.JSONDecodeError` are the only caught exceptions. -/
theorem c5_load_raise_counterexample :
    stop (fun s => s) (fun c => String.append "#" c) "/home/user"
      ⟨[("/home/user/a.txt", some "A")], ["/home/user"]⟩ [] LoadResult.missingField
      (some ["/home/user/a.txt"]) (fun _ => []) (fun _ => []) (fun _ => [])
      (fun _ => false) (fun _ => false) (fun _ => false) false false =
      Except.error (PyErr.keyError, ⟨[("/home/user/a.txt", some "A")], ["/home/user"]⟩) := rfl

/-- Claim C5 (amended): when the state file is absent/unreadable (`OSError`)
or not valid JSON (`JSONDecodeError`), `stop` returns failure without
raising and changes nothing — `fsAfter = fs`, all counters zero, no cleanup
attempted.  (A parse that succeeds but lacks the expected fields instead
raises an uncaught `KeyError`/`TypeError`; see the counterexample.) -/
theorem c5_load_failure_inert (norm H : String → String) (home : String)
    (fs : FileSys) (backupFiles : List (String × String)) (load : LoadResult)
    (enumeration : Option (List String))
    (decideNew decideMod decideDel : List String → List String)
    (restoreFail removeFail revertFail : String → Bool) (stateRemoveFail rmtreeFail : Bool)
    (hload : load = LoadResult.ioError ∨ load = LoadResult.parseError) :
    stop norm H home fs backupFiles load enumeration decideNew decideMod decideDel
      restoreFail removeFail revertFail stateRemoveFail rmtreeFail =
      Except.ok (stopFailOutcome fs) := by
  rcases hload with h | h <;> subst h <;> rfl

/-- Claim C5 witness: a concrete run of the amended theorem at `ioError`. -/
theorem c5_load_failure_inert_witness :
    stop (fun s => s) (fun c => c) "/home/user" ⟨[], []⟩ [] LoadResult.ioError none
      (fun _ => []) (fun _ => []) (fun _ => [])
      (fun _ => false) (fun _ => false) (fun _ => false) false false =
      Except.ok (stopFailOutcome ⟨[], []⟩) :=
  c5_load_failure_inert (fun s => s) (fun c => c) "/home/user" ⟨[], []⟩ []
    LoadResult.ioError none (fun _ => []) (fun _ => []) (fun _ => [])
    (fun _ => false) (fun _ => false) (fun _ => false) false false (Or.inl rfl)

/-- Claim C8 counterexample: if `os.makedirs` fails while creating a backup
entry's parent directories, the `OSError` is NOT swallowed — it is raised
outside `_backup_file`'s `try` and aborts `start` (the tracking loop does
not continue). -/
theorem c8_backup_mkdir_raises_counterexample :
    start (fun s => s) (fun c => String.append "#" c) "/home/user" "/tmp/bk"
      (fun _ => true) (fun _ => false)
      ⟨[("/home/user/a.txt", some "A")], ["/home/user"]⟩
      (some ["/home/user/a.txt"]) = Except.error PyErr.osError := rfl

/-- The method `_backup_file` cannot raise when its `os.makedirs` call succeeds: every
other failure (`shutil.copy2`) is inside the `try` and swallowed. -/
theorem backupFile_ok (home tmpdir : String) (mkdirFail copyFail : String → Bool)
    (fs : FileSys) (acc : TrackAcc) (filepath : String)
    (hmk : mkdirFail filepath = false) :
    ∃ acc2, backupFile home tmpdir mkdirFail copyFail fs acc filepath = Except.ok acc2 := by
  simp only [backupFile, hmk, Bool.false_eq_true, if_false]
  by_cases hcp : copyFail filepath
  · simp only [hcp, if_true]
    exact ⟨_, rfl⟩
  · simp only [hcp, Bool.false_eq_true, if_false]
    cases readFile fs filepath <;> exact ⟨_, rfl⟩

/-- If no `os.makedirs` call fails, the tracking loop of `start` never
raises: `shutil.copy2` failures are caught and swallowed. -/
theorem trackLoop_ok_of_no_mkdirFail (norm H : String → String)
    (home tmpdir : String) (mkdirFail copyFail : String → Bool) (fs : FileSys)
    (hmk : ∀ f, mkdirFail f = false) :
    ∀ (l : List String) (acc : TrackAcc),
      ∃ acc2, trackLoop norm H home tmpdir mkdirFail copyFail fs l acc = Except.ok acc2 := by
  intro l
  induction l with
  | nil => intro acc; exact ⟨acc, rfl⟩
  | cons f rest ih =>
    intro acc
    by_cases hst : shouldTrackFile norm home fs f
    · obtain ⟨acc2, hbk⟩ := backupFile_ok home tmpdir mkdirFail copyFail fs
        { acc with originalState :=
            dictInsert acc.originalState (norm f) (calculateFileHash H fs (norm f)) }
        (norm f) (hmk (norm f))
      simp only [trackLoop, hst, if_true, hbk]
      exact ih _
    · simp only [trackLoop, hst, Bool.false_eq_true, if_false]
      exact ih _

/-- Claim C8 (amended): per-file `shutil.copy2` failures while populating
the backup store are swallowed and `begin()` completes successfully for any
pattern of copy failures; only an `os.makedirs` failure (which sits outside
the `try`) raises out of `begin()` and aborts the loop. -/
theorem c8_copy_failures_swallowed (norm H : String → String)
    (home tmpdir : String) (mkdirFail copyFail : String → Bool) (fs : FileSys)
    (files : List String) (hmk : ∀ f, mkdirFail f = false) :
    ∃ r, start norm H home tmpdir mkdirFail copyFail fs (some files) = Except.ok r ∧
      r.ok = true := by
  obtain ⟨acc2, h⟩ :=
    trackLoop_ok_of_no_mkdirFail norm H home tmpdir mkdirFail copyFail fs hmk files
      ⟨[], none, [], 0⟩
  simp only [start, h]
  exact ⟨_, rfl, rfl⟩

/-- Claim C8 witness: with every copy failing and no makedirs failure,
`start` still returns success. -/
theorem c8_copy_failures_swallowed_witness :
    ∃ r, start (fun s => s) (fun c => c) "/home/user" "/tmp/bk"
      (fun _ => false) (fun _ => true)
      ⟨[("/home/user/a.txt", some "A")], ["/home/user"]⟩
      (some ["/home/user/a.txt"]) = Except.ok r ∧ r.ok = true :=
  c8_copy_failures_swallowed (fun s => s) (fun c => c) "/home/user" "/tmp/bk"
    (fun _ => false) (fun _ => true)
    ⟨[("/home/user/a.txt", some "A")], ["/home/user"]⟩
    ["/home/user/a.txt"] (fun _ => rfl)

/-- A path accepted by `_should_track_file` passed the excluded-roots test:
its normalized form starts with none of the `EXCLUDED_PATHS` entries. -/
theorem shouldTrack_no_excluded_root (norm : String → String) (home : String)
    (fs : FileSys) (f : String) (h : shouldTrackFile norm home fs f = true) :
    EXCLUDED_PATHS.any (fun ex => pyStartsWith (norm f) ex) = false := by
  cases hx : EXCLUDED_PATHS.any (fun ex => pyStartsWith (norm f) ex)
  · rfl
  · simp only [shouldTrackFile, hx, if_true] at h
    exact h.symm

/-- Every entry of `dictInsert d k v` is an old entry or is `(k, v)`. -/
theorem mem_dictInsert (d : List (String × String)) (k v : String)
    (e : String × String) (h : e ∈ dictInsert d k v) : e ∈ d ∨ e = (k, v) := by
  induction d with
  | nil =>
    right
    simpa [dictInsert] using h
  | cons a rest ih =>
    by_cases ha : a.1 == k
    · simp only [dictInsert, ha, if_true] at h
      rcases List.mem_cons.mp h with h | h
      · right; exact h
      · left; exact List.mem_cons_of_mem a h
    · simp only [dictInsert, ha, Bool.false_eq_true, if_false] at h
      rcases List.mem_cons.mp h with h | h
      · left; rw [h]; exact List.mem_cons_self a rest
      · rcases ih h with h2 | h2
        · left; exact List.mem_cons_of_mem a h2
        · right; exact h2

/-- The method `_backup_file` never touches the snapshot map or the counter: a
successful call returns the accumulator with `originalState` and `tracked`
unchanged. -/
theorem backupFile_originalState (home tmpdir : String)
    (mkdirFail copyFail : String → Bool) (fs : FileSys) (acc acc2 : TrackAcc)
    (fp : String)
    (h : backupFile home tmpdir mkdirFail copyFail fs acc fp = Except.ok acc2) :
    acc2.originalState = acc.originalState ∧ acc2.tracked = acc.tracked := by
  by_cases h1 : mkdirFail fp
  · simp only [backupFile, h1, if_true] at h
    cases h
  · by_cases h0 : acc.backupPath.isNone <;> by_cases h2 : copyFail fp <;>
      simp only [backupFile, h0, h1, h2, if_true, Bool.false_eq_true, if_false,
        Except.ok.injEq] at h
    · subst h; exact ⟨rfl, rfl⟩
    · cases hr : readFile fs fp <;> rw [hr] at h <;>
        simp only [Except.ok.injEq] at h <;> subst h <;> exact ⟨rfl, rfl⟩
    · subst h; exact ⟨rfl, rfl⟩
    · cases hr : readFile fs fp <;> rw [hr] at h <;>
        simp only [Except.ok.injEq] at h <;> subst h <;> exact ⟨rfl, rfl⟩

/-- Invariant of `start`'s tracking loop: every snapshot key satisfies any
property `P` that holds of the initial keys and of `norm f` for every file
`f` the filter accepts. -/
theorem trackLoop_originalState_invariant (norm H : String → String)
    (home tmpdir : String) (mkdirFail copyFail : String → Bool) (fs : FileSys)
    (P : String → Prop)
    (hP : ∀ f, shouldTrackFile norm home fs f = true → P (norm f)) :
    ∀ (l : List String) (acc acc2 : TrackAcc),
      trackLoop norm H home tmpdir mkdirFail copyFail fs l acc = Except.ok acc2 →
      (∀ e ∈ acc.originalState, P e.1) →
      ∀ e ∈ acc2.originalState, P e.1 := by
  intro l
  induction l with
  | nil =>
    intro acc acc2 h hinv
    cases h
    exact hinv
  | cons f rest ih =>
    intro acc acc2 h hinv
    by_cases hst : shouldTrackFile norm home fs f
    · simp only [trackLoop, hst, if_true] at h
      cases hbk : backupFile home tmpdir mkdirFail copyFail fs
          { acc with originalState :=
              dictInsert acc.originalState (norm f) (calculateFileHash H fs (norm f)) }
          (norm f) with
      | error e => rw [hbk] at h; cases h
      | ok accb =>
        rw [hbk] at h
        refine ih _ _ h ?_
        intro e he
        have hos := (backupFile_originalState _ _ _ _ _ _ _ _ hbk).1
        rw [hos] at he
        rcases mem_dictInsert _ _ _ _ he with hmem | hkey
        · exact hinv e hmem
        · rw [hkey]
          exact hP f hst
    · simp only [trackLoop, hst, Bool.false_eq_true, if_false] at h
      exact ih _ _ h hinv

/-- Claim C10: a path whose normalized form starts with one of the excluded
root strings `/proc`, `/sys`, `/dev`, `/run`, `/tmp`, `/var/log` — as a
plain string prefix, even with no separator after it (`/tmpdata/file`,
`/devices/x`) — is rejected by `_should_track_file`, and consequently no
snapshot key recorded by `start` ever carries such a prefix (so such paths
are never tracked, backed up, or later classified from the snapshot). -/
theorem c10_excluded_roots (norm H : String → String) (home tmpdir : String)
    (mkdirFail copyFail : String → Bool) (fs : FileSys) (files : List String) :
    (∀ p, EXCLUDED_PATHS.any (fun ex => pyStartsWith (norm p) ex) = true →
      shouldTrackFile norm home fs p = false) ∧
    (∀ r, start norm H home tmpdir mkdirFail copyFail fs (some files) = Except.ok r →
      ∀ e ∈ r.originalState,
        EXCLUDED_PATHS.any (fun ex => pyStartsWith e.1 ex) = false) := by
  constructor
  · intro p hp
    simp only [shouldTrackFile, hp, if_true]
  · intro r hr e he
    simp only [start] at hr
    cases htl : trackLoop norm H home tmpdir mkdirFail copyFail fs files ⟨[], none, [], 0⟩ with
    | error e2 => rw [htl] at hr; cases hr
    | ok acc =>
      rw [htl] at hr
      have hacc : r.originalState = acc.originalState := by
        cases hr
        rfl
      refine trackLoop_originalState_invariant norm H home tmpdir mkdirFail copyFail fs
        (fun k => EXCLUDED_PATHS.any (fun ex => pyStartsWith k ex) = false)
        (fun f hf => shouldTrack_no_excluded_root norm home fs f hf)
        files ⟨[], none, [], 0⟩ acc htl (by intro e2 he2; cases he2) e ?_
      rw [← hacc]
      exact he

/-- Claim C10 witness: `/tmpdata/file` (no separator after the `/tmp`
prefix) is rejected by the filter. -/
theorem c10_excluded_roots_witness :
    shouldTrackFile (fun s => s) "/home/user" ⟨[("/tmpdata/file", some "x")], []⟩
      "/tmpdata/file" = false :=
  (c10_excluded_roots (fun s => s) (fun c => c) "/home/user" "/tmp/bk"
    (fun _ => false) (fun _ => false) ⟨[("/tmpdata/file", some "x")], []⟩ []).1
    "/tmpdata/file" (by decide)

/-- Claim C1 counterexample: a tracked file whose recorded begin-fingerprint
is the EMPTY sentinel `""` and whose reconcile-time fingerprint is again
EMPTY (the file `/home/user/f` exists but is unreadable at both points) is
NOT classified as Modified: `current_hash != original_state[p]` compares
`"" != ""`, the two EMPTY fingerprints are treated as equal, every change
list stays empty and the run even reports "no changes detected". -/
theorem c1_both_empty_counterexample :
    stop (fun s => s) (fun c => String.append "#" c) "/home/user"
      ⟨[("/home/user/f", none)], ["/home/user"]⟩ []
      (LoadResult.okState (some "/tmp/bk") [("/home/user/f", "")])
      (some ["/home/user/f"]) (fun _ => []) (fun _ => []) (fun _ => [])
      (fun _ => false) (fun _ => false) (fun _ => false) false false =
      Except.ok
        { ok := true,
          newList := [],
          modifiedList := [],
          deletedList := [],
          promptShown := false,
          preserved := [],
          removed := 0,
          reverted := 0,
          restored := 0,
          fsAfter := ⟨[("/home/user/f", none)], ["/home/user"]⟩,
          stateRemoveAttempted := true,
          stateRemoved := true,
          backupRemoveAttempted := true,
          backupRemoved := true,
          noChangesReported := true } := rfl

/-- Claim C1 (amended): when the snapshot records the EMPTY fingerprint for
`norm f` and the reconcile-time fingerprint of `norm f` is again EMPTY, the
equality test treats the two EMPTYs as equal and the classification scan
skips `f` entirely — it is treated as unchanged, contributing to neither the
new nor the modified list (EMPTY forces "modified" only when exactly one
side is EMPTY). -/
theorem c1_both_empty_unchanged (norm H : String → String) (home : String)
    (fs : FileSys) (snap : List (String × String)) (f : String)
    (rest : List String) (hsnap : lookupStr snap (norm f) = some "")
    (hhash : calculateFileHash H fs (norm f) = "") :
    classifyNewMod norm H home fs snap (f :: rest) =
      classifyNewMod norm H home fs snap rest := by
  rcases hcl : classifyNewMod norm H home fs snap rest with ⟨ns, ms⟩
  by_cases hst : shouldTrackFile norm home fs f <;>
    simp only [classifyNewMod, hcl, hst, if_true, Bool.false_eq_true, if_false,
      hsnap, hhash, beq_self_eq_true]

/-- Claim C1 witness: the amended theorem applied at the unreadable file
`/home/user/f` whose snapshot fingerprint is EMPTY. -/
theorem c1_both_empty_unchanged_witness :
    classifyNewMod (fun s => s) (fun c => String.append "#" c) "/home/user"
      ⟨[("/home/user/f", none)], ["/home/user"]⟩ [("/home/user/f", "")]
      ["/home/user/f"] =
    classifyNewMod (fun s => s) (fun c => String.append "#" c) "/home/user"
      ⟨[("/home/user/f", none)], ["/home/user"]⟩ [("/home/user/f", "")] [] :=
  c1_both_empty_unchanged (fun s => s) (fun c => String.append "#" c) "/home/user"
    ⟨[("/home/user/f", none)], ["/home/user"]⟩ [("/home/user/f", "")]
    "/home/user/f" [] (by decide) (by decide)

/-- Claim C7 counterexample: when removing the state file fails, `stop` does
NOT attempt to remove the backup directory — both deletions sit in ONE `try`
block, so the `OSError` from `os.remove(STATE_FILE)` jumps straight to
`except OSError: pass` and `shutil.rmtree(backup_path)` is skipped
(`backupRemoveAttempted = false`). -/
theorem c7_cleanup_counterexample :
    stop (fun s => s) (fun c => String.append "#" c) "/home/user"
      ⟨[], ["/home/user"]⟩ [] (LoadResult.okState (some "/tmp/bk") []) (some [])
      (fun _ => []) (fun _ => []) (fun _ => [])
      (fun _ => false) (fun _ => false) (fun _ => false) true false =
      Except.ok
        { ok := true,
          newList := [],
          modifiedList := [],
          deletedList := [],
          promptShown := false,
          preserved := [],
          removed := 0,
          reverted := 0,
          restored := 0,
          fsAfter := ⟨[], ["/home/user"]⟩,
          stateRemoveAttempted := true,
          stateRemoved := false,
          backupRemoveAttempted := false,
          backupRemoved := false,
          noChangesReported := true } := rfl

/-- With a string (non-`None`) backup path, the deleted-files apply loop
never raises: every per-file failure is inside its `try`. -/
theorem applyDeleted_some_ok (home bpv : String)
    (backupFiles : List (String × String)) (preserved : List String)
    (restoreFail : String → Bool) :
    ∀ (l : List (String × String)) (fs : FileSys) (n : Nat),
      ∃ r, applyDeleted home (some bpv) backupFiles preserved restoreFail l fs n =
        Except.ok r := by
  intro l
  induction l with
  | nil => intro fs n; exact ⟨_, rfl⟩
  | cons e rest ih =>
    intro fs n
    by_cases h1 : pexists fs e.1
    · simp only [applyDeleted, h1, if_true]
      exact ih fs n
    · by_cases h2 : preserved.contains (relpath home e.1)
      · simp only [applyDeleted, h1, h2, if_true, Bool.false_eq_true, if_false]
        exact ih fs n
      · by_cases h3 : restoreFail e.1
        · simp only [applyDeleted, h1, h2, h3, if_true, Bool.false_eq_true, if_false]
          exact ih fs n
        · simp only [applyDeleted, h1, h2, h3, if_true, Bool.false_eq_true, if_false]
          cases lookupStr backupFiles (relpath home e.1)
          · exact ih fs n
          · exact ih _ _

/-- With a string (non-`None`) backup path, the new/modified apply loop
never raises either. -/
theorem applyNewMod_some_ok (norm H : String → String) (home bpv : String)
    (backupFiles : List (String × String)) (snap : List (String × String))
    (preserved : List String) (removeFail revertFail : String → Bool) :
    ∀ (l : List String) (fs : FileSys) (rem rev : Nat),
      ∃ r, applyNewMod norm H home (some bpv) backupFiles snap preserved removeFail
        revertFail l fs rem rev = Except.ok r := by
  intro l
  induction l with
  | nil => intro fs rem rev; exact ⟨_, rfl⟩
  | cons f rest ih =>
    intro fs rem rev
    by_cases hst : shouldTrackFile norm home fs f
    · simp only [applyNewMod, hst, if_true]
      cases lookupStr snap (norm f) with
      | none =>
        by_cases h2 : preserved.contains (relpath home (norm f))
        · simp only [h2, if_true]
          exact ih fs rem rev
        · by_cases h3 : removeFail (norm f)
          · simp only [h2, h3, if_true, Bool.false_eq_true, if_false]
            exact ih fs rem rev
          · simp only [h2, h3, Bool.false_eq_true, if_false]
            exact ih _ _ _
      | some oh =>
        by_cases h4 : calculateFileHash H fs (norm f) == oh
        · simp only [h4, if_true]
          exact ih fs rem rev
        · by_cases h2 : preserved.contains (relpath home (norm f))
          · simp only [h4, h2, if_true, Bool.false_eq_true, if_false]
            exact ih fs rem rev
          · by_cases h5 : revertFail (norm f)
            · simp only [h4, h2, h5, if_true, Bool.false_eq_true, if_false]
              exact ih fs rem rev
            · simp only [h4, h2, h5, Bool.false_eq_true, if_false]
              cases lookupStr backupFiles (relpath home (norm f))
              · exact ih fs rem rev
              · exact ih _ _ _
    · simp only [applyNewMod, hst, Bool.false_eq_true, if_false]
      exact ih fs rem rev

/-- Claim C7 (amended): after the apply phase of a `stop` run whose loaded
backup path is a string, removal of the state file is always attempted and
no cleanup failure escapes `stop`; but removal of the backup directory is
attempted only when removing the state file succeeded (both deletions share
one `try` block), in which case its own failure is likewise swallowed. -/
theorem c7_cleanup_behaviour (norm H : String → String) (home bpv : String)
    (fs : FileSys) (backupFiles snap : List (String × String))
    (files : List String) (decideNew decideMod decideDel : List String → List String)
    (restoreFail removeFail revertFail : String → Bool)
    (stateRemoveFail rmtreeFail : Bool) :
    ∃ out, stop norm H home fs backupFiles (LoadResult.okState (some bpv) snap)
        (some files) decideNew decideMod decideDel restoreFail removeFail revertFail
        stateRemoveFail rmtreeFail = Except.ok out ∧
      out.stateRemoveAttempted = true ∧
      out.backupRemoveAttempted = !stateRemoveFail ∧
      out.backupRemoved = (!stateRemoveFail && !rmtreeFail) := by
  simp only [stop]
  rcases hcl : classifyNewMod norm H home fs snap files with ⟨newL, modL⟩
  obtain ⟨⟨fs1, restored⟩, h1⟩ :=
    applyDeleted_some_ok home bpv backupFiles
      ((if newL.isEmpty then [] else decideNew newL) ++
        (if modL.isEmpty then [] else decideMod modL) ++
        (if (classifyDeleted home fs snap).isEmpty then []
          else decideDel (classifyDeleted home fs snap)))
      restoreFail snap fs 0
  obtain ⟨⟨fs2, removed, reverted⟩, h2⟩ :=
    applyNewMod_some_ok norm H home bpv backupFiles snap
      ((if newL.isEmpty then [] else decideNew newL) ++
        (if modL.isEmpty then [] else decideMod modL) ++
        (if (classifyDeleted home fs snap).isEmpty then []
          else decideDel (classifyDeleted home fs snap)))
      removeFail revertFail files fs1 0 0
  simp only [stopApply, hcl, h1, h2]
  cases stateRemoveFail
  · exact ⟨_, rfl, rfl, rfl, rfl⟩
  · exact ⟨_, rfl, rfl, rfl, rfl⟩

/-- After `d[k] = v`, looking up `k` yields `v`. -/
theorem lookupStr_dictInsert_self (d : List (String × String)) (k v : String) :
    lookupStr (dictInsert d k v) k = some v := by
  induction d with
  | nil => simp [dictInsert, lookupStr]
  | cons e rest ih =>
    by_cases he : e.1 == k
    · simp [dictInsert, he, lookupStr]
    · simp only [dictInsert, he, Bool.false_eq_true, if_false, lookupStr]
      exact ih

/-- Assignment `d[k] = v` leaves lookups of other keys unchanged. -/
theorem lookupStr_dictInsert_other (d : List (String × String)) (k v key : String)
    (hne : key ≠ k) : lookupStr (dictInsert d k v) key = lookupStr d key := by
  have hkk : (k == key) = false := beq_eq_false_iff_ne.mpr (Ne.symm hne)
  induction d with
  | nil => simp [dictInsert, lookupStr, hkk]
  | cons e rest ih =>
    by_cases he : e.1 == k
    · have hek : e.1 = k := by simpa using he
      have hek2 : (e.1 == key) = false :=
        beq_eq_false_iff_ne.mpr (by rw [hek]; exact Ne.symm hne)
      simp [dictInsert, he, lookupStr, hkk, hek2]
    · simp only [dictInsert, he, Bool.false_eq_true, if_false, lookupStr]
      by_cases he2 : e.1 == key
      · simp [he2]
      · simp [he2, ih]

/-- A path accepted by `_should_track_file` names an existing regular file
(the filter's final `os.path.isfile` check, on the normalized path). -/
theorem shouldTrack_isfile (norm : String → String) (home : String) (fs : FileSys)
    (f : String) (h : shouldTrackFile norm home fs f = true) :
    isfile fs (norm f) = true := by
  simp only [shouldTrackFile] at h
  split_ifs at h
  exact h

/-- A successful lookup exhibits a member of the association list. -/
theorem lookupStr_mem :
    ∀ (d : List (String × String)) (key v : String),
      lookupStr d key = some v → (key, v) ∈ d := by
  intro d
  induction d with
  | nil => intro key v h; cases h
  | cons e rest ih =>
    intro key v h
    rcases e with ⟨k1, v1⟩
    by_cases hk : k1 == key
    · simp only [lookupStr, hk, if_true, Option.some.injEq] at h
      have hkey : k1 = key := by simpa using hk
      subst hkey
      subst h
      exact List.mem_cons_self _ _
    · simp only [lookupStr, hk, Bool.false_eq_true, if_false] at h
      exact List.mem_cons_of_mem _ (ih key v h)

/-- Entry-wise invariant of `start`'s tracking loop: any property `P` of
snapshot entries that holds initially and holds of
`(norm f, fingerprint-of-norm f)` for every accepted file holds of every
entry of the final snapshot. -/
theorem trackLoop_entries_invariant (norm H : String → String)
    (home tmpdir : String) (mkdirFail copyFail : String → Bool) (fs : FileSys)
    (P : String × String → Prop)
    (hP : ∀ f, shouldTrackFile norm home fs f = true →
      P (norm f, calculateFileHash H fs (norm f))) :
    ∀ (l : List String) (acc acc2 : TrackAcc),
      trackLoop norm H home tmpdir mkdirFail copyFail fs l acc = Except.ok acc2 →
      (∀ e ∈ acc.originalState, P e) →
      ∀ e ∈ acc2.originalState, P e := by
  intro l
  induction l with
  | nil =>
    intro acc acc2 h hinv
    cases h
    exact hinv
  | cons f rest ih =>
    intro acc acc2 h hinv
    by_cases hst : shouldTrackFile norm home fs f
    · simp only [trackLoop, hst, if_true] at h
      cases hbk : backupFile home tmpdir mkdirFail copyFail fs
          { acc with originalState :=
              dictInsert acc.originalState (norm f) (calculateFileHash H fs (norm f)) }
          (norm f) with
      | error e => rw [hbk] at h; cases h
      | ok accb =>
        rw [hbk] at h
        refine ih _ _ h ?_
        intro e he
        have hos := (backupFile_originalState _ _ _ _ _ _ _ _ hbk).1
        rw [hos] at he
        rcases mem_dictInsert _ _ _ _ he with hmem | hkey
        · exact hinv e hmem
        · rw [hkey]
          exact hP f hst
    · simp only [trackLoop, hst, Bool.false_eq_true, if_false] at h
      exact ih _ _ h hinv

/-- A key present in the snapshot stays present through the tracking loop. -/
theorem trackLoop_lookup_mono (norm H : String → String) (home tmpdir : String)
    (mkdirFail copyFail : String → Bool) (fs : FileSys) :
    ∀ (l : List String) (acc acc2 : TrackAcc) (key : String),
      trackLoop norm H home tmpdir mkdirFail copyFail fs l acc = Except.ok acc2 →
      (lookupStr acc.originalState key).isSome = true →
      (lookupStr acc2.originalState key).isSome = true := by
  intro l
  induction l with
  | nil =>
    intro acc acc2 key h hs
    cases h
    exact hs
  | cons f rest ih =>
    intro acc acc2 key h hs
    by_cases hst : shouldTrackFile norm home fs f
    · simp only [trackLoop, hst, if_true] at h
      cases hbk : backupFile home tmpdir mkdirFail copyFail fs
          { acc with originalState :=
              dictInsert acc.originalState (norm f) (calculateFileHash H fs (norm f)) }
          (norm f) with
      | error e => rw [hbk] at h; cases h
      | ok accb =>
        rw [hbk] at h
        refine ih _ _ key h ?_
        have hos := (backupFile_originalState _ _ _ _ _ _ _ _ hbk).1
        rw [hos]
        by_cases hk : key = norm f
        · rw [hk, lookupStr_dictInsert_self]
          rfl
        · rw [lookupStr_dictInsert_other _ _ _ _ hk]
          exact hs
    · simp only [trackLoop, hst, Bool.false_eq_true, if_false] at h
      exact ih _ _ key h hs

/-- Every file accepted by the filter during `start` ends up as a key of the
final snapshot. -/
theorem trackLoop_tracks (norm H : String → String) (home tmpdir : String)
    (mkdirFail copyFail : String → Bool) (fs : FileSys) :
    ∀ (l : List String) (acc acc2 : TrackAcc),
      trackLoop norm H home tmpdir mkdirFail copyFail fs l acc = Except.ok acc2 →
      ∀ f ∈ l, shouldTrackFile norm home fs f = true →
        (lookupStr acc2.originalState (norm f)).isSome = true := by
  intro l
  induction l with
  | nil => intro acc acc2 h f hf; cases hf
  | cons g rest ih =>
    intro acc acc2 h f hf hst
    rcases List.mem_cons.mp hf with hfg | hfr
    · subst hfg
      simp only [trackLoop, hst, if_true] at h
      cases hbk : backupFile home tmpdir mkdirFail copyFail fs
          { acc with originalState :=
              dictInsert acc.originalState (norm f) (calculateFileHash H fs (norm f)) }
          (norm f) with
      | error e => rw [hbk] at h; cases h
      | ok accb =>
        rw [hbk] at h
        refine trackLoop_lookup_mono norm H home tmpdir mkdirFail copyFail fs rest _
          acc2 (norm f) h ?_
        have hos := (backupFile_originalState _ _ _ _ _ _ _ _ hbk).1
        rw [hos, lookupStr_dictInsert_self]
        rfl
    · by_cases hstg : shouldTrackFile norm home fs g
      · simp only [trackLoop, hstg, if_true] at h
        cases hbk : backupFile home tmpdir mkdirFail copyFail fs
            { acc with originalState :=
                dictInsert acc.originalState (norm g) (calculateFileHash H fs (norm g)) }
            (norm g) with
        | error e => rw [hbk] at h; cases h
        | ok accb =>
          rw [hbk] at h
          exact ih _ _ h f hfr hst
      · simp only [trackLoop, hstg, Bool.false_eq_true, if_false] at h
        exact ih _ _ h f hfr hst

/-- If every snapshot key still exists, the deleted-files scan is empty. -/
theorem classifyDeleted_nil (home : String) (fs : FileSys)
    (snap : List (String × String)) (h : ∀ e ∈ snap, pexists fs e.1 = true) :
    classifyDeleted home fs snap = [] := by
  unfold classifyDeleted
  have hf : snap.filter (fun e => !(pexists fs e.1)) = [] := by
    rw [List.filter_eq_nil_iff]
    intro e he
    simp [h e he]
  rw [hf, List.map_nil]

/-- If every tracked current file is a snapshot key with a matching
fingerprint, the new/modified scan returns two empty lists. -/
theorem classifyNewMod_nil (norm H : String → String) (home : String) (fs : FileSys)
    (snap : List (String × String)) :
    ∀ l, (∀ f ∈ l, shouldTrackFile norm home fs f = true →
        ∃ v, lookupStr snap (norm f) = some v ∧
          (calculateFileHash H fs (norm f) == v) = true) →
      classifyNewMod norm H home fs snap l = ([], []) := by
  intro l
  induction l with
  | nil => intro _; rfl
  | cons f rest ih =>
    intro h
    have hrest := ih (fun g hg => h g (List.mem_cons_of_mem f hg))
    by_cases hst : shouldTrackFile norm home fs f
    · obtain ⟨v, hv, hbeq⟩ := h f (List.mem_cons_self f rest) hst
      simp only [classifyNewMod, hrest, hst, if_true, hv, hbeq]
    · simp only [classifyNewMod, hrest, hst, Bool.false_eq_true, if_false]

/-- If every snapshot key still exists, the deleted-files apply loop does
nothing. -/
theorem applyDeleted_noop (home : String) (bp : Option String)
    (backupFiles : List (String × String)) (preserved : List String)
    (restoreFail : String → Bool) :
    ∀ (l : List (String × String)) (fs : FileSys) (n : Nat),
      (∀ e ∈ l, pexists fs e.1 = true) →
      applyDeleted home bp backupFiles preserved restoreFail l fs n =
        Except.ok (fs, n) := by
  intro l
  induction l with
  | nil => intro fs n _; rfl
  | cons e rest ih =>
    intro fs n h
    simp only [applyDeleted, h e (List.mem_cons_self e rest), if_true]
    exact ih fs n (fun e2 he2 => h e2 (List.mem_cons_of_mem e he2))

/-- If every tracked current file is a snapshot key with a matching
fingerprint, the new/modified apply loop does nothing. -/
theorem applyNewMod_noop (norm H : String → String) (home : String)
    (bp : Option String) (backupFiles snap : List (String × String))
    (preserved : List String) (removeFail revertFail : String → Bool) :
    ∀ (l : List String) (fs : FileSys) (rem rev : Nat),
      (∀ f ∈ l, shouldTrackFile norm home fs f = true →
        ∃ v, lookupStr snap (norm f) = some v ∧
          (calculateFileHash H fs (norm f) == v) = true) →
      applyNewMod norm H home bp backupFiles snap preserved removeFail revertFail
        l fs rem rev = Except.ok (fs, rem, rev) := by
  intro l
  induction l with
  | nil => intro fs rem rev _; rfl
  | cons f rest ih =>
    intro fs rem rev h
    by_cases hst : shouldTrackFile norm home fs f
    · obtain ⟨v, hv, hbeq⟩ := h f (List.mem_cons_self f rest) hst
      simp only [applyNewMod, hst, if_true, hv, hbeq]
      exact ih fs rem rev (fun g hg => h g (List.mem_cons_of_mem f hg))
    · simp only [applyNewMod, hst, Bool.false_eq_true, if_false]
      exact ih fs rem rev (fun g hg => h g (List.mem_cons_of_mem f hg))

/-- Claim C3 counterexample: with ZERO tracked files (`begin()` succeeds on
an empty watched root and stores `backup_path = None`), a no-change
`reconcile()` still computes an empty ChangeSet and shows no prompt, but it
then crashes: cleanup removes the state file and calls
`shutil.rmtree(None)`, whose `TypeError` is not caught by `except OSError`,
so the run never reports "no changes detected". -/
theorem c3_zero_tracked_counterexample :
    start (fun s => s) (fun c => String.append "#" c) "/home/user" "/tmp/bk"
      (fun _ => false) (fun _ => false) ⟨[], ["/home/user"]⟩ (some []) =
      Except.ok
        { ok := true,
          tracked := 0,
          originalState := [],
          backupPath := none,
          backupEntries := [],
          savedState := some (none, []) } ∧
    stop (fun s => s) (fun c => String.append "#" c) "/home/user"
      ⟨[], ["/home/user"]⟩ [] (LoadResult.okState none []) (some [])
      (fun _ => []) (fun _ => []) (fun _ => [])
      (fun _ => false) (fun _ => false) (fun _ => false) false false =
      Except.error (PyErr.typeError, ⟨[], ["/home/user"]⟩) :=
  ⟨rfl, rfl⟩

/-- Claim C3 (amended): if `begin()` succeeds having tracked at least one
file (so the recorded backup path is a string), then `reconcile()` over the
unchanged filesystem and the same enumeration computes an empty ChangeSet
in all three categories, shows no preservation prompt, touches nothing, and
reports that no changes were detected.  (With zero tracked files the
ChangeSet is still empty and no prompt is shown, but cleanup raises
`TypeError` on the `None` backup path before the report — see the
counterexample.) -/
theorem c3_no_change_clean (norm H : String → String) (home tmpdir bpv : String)
    (mkdirFail copyFail : String → Bool) (fs : FileSys) (files : List String)
    (r : StartResult)
    (decideNew decideMod decideDel : List String → List String)
    (restoreFail removeFail revertFail : String → Bool)
    (stateRemoveFail rmtreeFail : Bool)
    (hstart : start norm H home tmpdir mkdirFail copyFail fs (some files) =
      Except.ok r)
    (hbp : r.backupPath = some bpv) :
    ∃ out, stop norm H home fs r.backupEntries
        (LoadResult.okState r.backupPath r.originalState) (some files)
        decideNew decideMod decideDel restoreFail removeFail revertFail
        stateRemoveFail rmtreeFail = Except.ok out ∧
      out.newList = [] ∧ out.modifiedList = [] ∧ out.deletedList = [] ∧
      out.promptShown = false ∧ out.fsAfter = fs ∧ out.noChangesReported = true := by
  simp only [start] at hstart
  cases htl : trackLoop norm H home tmpdir mkdirFail copyFail fs files ⟨[], none, [], 0⟩ with
  | error e => rw [htl] at hstart; cases hstart
  | ok acc =>
    rw [htl] at hstart
    cases hstart
    have hpair : ∀ e ∈ acc.originalState,
        isfile fs e.1 = true ∧ e.2 = calculateFileHash H fs e.1 := by
      refine trackLoop_entries_invariant norm H home tmpdir mkdirFail copyFail fs
        (fun e => isfile fs e.1 = true ∧ e.2 = calculateFileHash H fs e.1)
        (fun f hf => ⟨shouldTrack_isfile norm home fs f hf, rfl⟩)
        files ⟨[], none, [], 0⟩ acc htl ?_
      intro e he
      cases he
    have hlook : ∀ f ∈ files, shouldTrackFile norm home fs f = true →
        ∃ v, lookupStr acc.originalState (norm f) = some v ∧
          (calculateFileHash H fs (norm f) == v) = true := by
      intro f hf hst
      have hs := trackLoop_tracks norm H home tmpdir mkdirFail copyFail fs files
        ⟨[], none, [], 0⟩ acc htl f hf hst
      cases hv : lookupStr acc.originalState (norm f) with
      | none => rw [hv] at hs; cases hs
      | some v =>
        refine ⟨v, rfl, ?_⟩
        have hmem := lookupStr_mem acc.originalState (norm f) v hv
        have hv2 : v = calculateFileHash H fs (norm f) := (hpair _ hmem).2
        rw [hv2]
        exact beq_self_eq_true _
    have hexists : ∀ e ∈ acc.originalState, pexists fs e.1 = true := by
      intro e he
      unfold pexists
      rw [(hpair e he).1]
      rfl
    have hdel : classifyDeleted home fs acc.originalState = [] :=
      classifyDeleted_nil home fs acc.originalState hexists
    have hnm : classifyNewMod norm H home fs acc.originalState files = ([], []) :=
      classifyNewMod_nil norm H home fs acc.originalState files hlook
    replace hbp : acc.backupPath = some bpv := hbp
    simp only [stop, hdel, hnm, stopApply, List.isEmpty_nil, if_true,
      List.nil_append, List.append_nil]
    simp only [applyDeleted_noop home acc.backupPath acc.backupEntries [] restoreFail
        acc.originalState fs 0 hexists,
      applyNewMod_noop norm H home acc.backupPath acc.backupEntries acc.originalState []
        removeFail revertFail files fs 0 0 hlook]
    cases stateRemoveFail
    · rw [hbp]
      exact ⟨_, rfl, rfl, rfl, rfl, rfl, rfl, rfl⟩
    · exact ⟨_, rfl, rfl, rfl, rfl, rfl, rfl, rfl⟩

/-- Claim C3 witness: one tracked file `a.txt`, nothing changed — the
empty ChangeSet, no prompt, untouched filesystem and the no-changes report,
via the amended theorem. -/
theorem c3_no_change_clean_witness :
    ∃ out, stop (fun s => s) (fun c => String.append "#" c) "/home/user"
        ⟨[("/home/user/a.txt", some "A")], ["/home/user"]⟩
        [("a.txt", "A")]
        (LoadResult.okState (some "/tmp/bk") [("/home/user/a.txt", "#A")])
        (some ["/home/user/a.txt"]) (fun _ => []) (fun _ => []) (fun _ => [])
        (fun _ => false) (fun _ => false) (fun _ => false) false false =
        Except.ok out ∧
      out.newList = [] ∧ out.modifiedList = [] ∧ out.deletedList = [] ∧
      out.promptShown = false ∧
      out.fsAfter = ⟨[("/home/user/a.txt", some "A")], ["/home/user"]⟩ ∧
      out.noChangesReported = true :=
  c3_no_change_clean (fun s => s) (fun c => String.append "#" c) "/home/user"
    "/tmp/bk" "/tmp/bk" (fun _ => false) (fun _ => false)
    ⟨[("/home/user/a.txt", some "A")], ["/home/user"]⟩ ["/home/user/a.txt"]
    { ok := true,
      tracked := 1,
      originalState := [("/home/user/a.txt", "#A")],
      backupPath := some "/tmp/bk",
      backupEntries := [("a.txt", "A")],
      savedState := some (some "/tmp/bk", [("/home/user/a.txt", "#A")]) }
    (fun _ => []) (fun _ => []) (fun _ => [])
    (fun _ => false) (fun _ => false) (fun _ => false) false false rfl rfl

/-- Claim C4: the spec scenario.  `notes.txt` has content `A` at `begin()`;
before `reconcile()` the user rewrites it to `AB` and creates
`scratch.tmp`; with no preservation choices, `reconcile()` deletes
`scratch.tmp`, restores `notes.txt` byte-for-byte to `A`, and the summary
counts exactly 1 removed, 1 reverted, 0 restored.  The fingerprinter is any
digest that separates `A` from `AB` (sha256 does). -/
theorem c4_scenario (H : String → String) (h1 : H "A" ≠ H "AB") :
    start (fun s => s) H "/home/user" "/tmp/bk" (fun _ => false) (fun _ => false)
      ⟨[("/home/user/notes.txt", some "A")], ["/home/user"]⟩
      (some ["/home/user/notes.txt"]) =
      Except.ok
        { ok := true,
          tracked := 1,
          originalState := [("/home/user/notes.txt", H "A")],
          backupPath := some "/tmp/bk",
          backupEntries := [("notes.txt", "A")],
          savedState := some (some "/tmp/bk", [("/home/user/notes.txt", H "A")]) } ∧
    ∃ out, stop (fun s => s) H "/home/user"
        ⟨[("/home/user/notes.txt", some "AB"), ("/home/user/scratch.tmp", some "S")],
          ["/home/user"]⟩
        [("notes.txt", "A")]
        (LoadResult.okState (some "/tmp/bk") [("/home/user/notes.txt", H "A")])
        (some ["/home/user/notes.txt", "/home/user/scratch.tmp"])
        (fun _ => []) (fun _ => []) (fun _ => [])
        (fun _ => false) (fun _ => false) (fun _ => false) false false =
        Except.ok out ∧
      readFile out.fsAfter "/home/user/notes.txt" = some "A" ∧
      isfile out.fsAfter "/home/user/scratch.tmp" = false ∧
      out.removed = 1 ∧ out.reverted = 1 ∧ out.restored = 0 := by
  have hb : (H "AB" == H "A") = false :=
    beq_eq_false_iff_ne.mpr fun he => h1 he.symm
  refine ⟨rfl, ?_⟩
  have hcd : classifyDeleted "/home/user"
      ⟨[("/home/user/notes.txt", some "AB"), ("/home/user/scratch.tmp", some "S")],
        ["/home/user"]⟩
      [("/home/user/notes.txt", H "A")] = [] := rfl
  have hst1 : shouldTrackFile (fun s => s) "/home/user"
      ⟨[("/home/user/notes.txt", some "AB"), ("/home/user/scratch.tmp", some "S")],
        ["/home/user"]⟩
      "/home/user/notes.txt" = true := rfl
  have hlk1 : lookupStr [("/home/user/notes.txt", H "A")] "/home/user/notes.txt" =
      some (H "A") := rfl
  have hch1 : calculateFileHash H
      ⟨[("/home/user/notes.txt", some "AB"), ("/home/user/scratch.tmp", some "S")],
        ["/home/user"]⟩
      "/home/user/notes.txt" = H "AB" := rfl
  have hcl : classifyNewMod (fun s => s) H "/home/user"
      ⟨[("/home/user/notes.txt", some "AB"), ("/home/user/scratch.tmp", some "S")],
        ["/home/user"]⟩
      [("/home/user/notes.txt", H "A")]
      ["/home/user/notes.txt", "/home/user/scratch.tmp"] =
      (["scratch.tmp"], ["notes.txt"]) := by
    simp only [classifyNewMod, hst1, if_true, hlk1, hch1, hb,
      Bool.false_eq_true, if_false]
    rfl
  have had : applyDeleted "/home/user" (some "/tmp/bk") [("notes.txt", "A")] []
      (fun _ => false) [("/home/user/notes.txt", H "A")]
      ⟨[("/home/user/notes.txt", some "AB"), ("/home/user/scratch.tmp", some "S")],
        ["/home/user"]⟩ 0 =
      Except.ok
        (⟨[("/home/user/notes.txt", some "AB"), ("/home/user/scratch.tmp", some "S")],
          ["/home/user"]⟩, 0) := rfl
  have h5 : applyNewMod (fun s => s) H "/home/user" (some "/tmp/bk")
      [("notes.txt", "A")] [("/home/user/notes.txt", H "A")] []
      (fun _ => false) (fun _ => false)
      ["/home/user/notes.txt", "/home/user/scratch.tmp"]
      ⟨[("/home/user/notes.txt", some "AB"), ("/home/user/scratch.tmp", some "S")],
        ["/home/user"]⟩ 0 0 =
      Except.ok (⟨[("/home/user/notes.txt", some "A")], ["/home/user"]⟩, 1, 1) := by
    simp only [applyNewMod, hst1, if_true, hlk1, hch1, hb, Bool.false_eq_true, if_false]
    rfl
  simp only [stop, stopApply, hcd, hcl, List.isEmpty_cons, List.isEmpty_nil, if_true,
    Bool.false_eq_true, if_false, List.nil_append, List.append_nil, had, h5]
  exact ⟨_, rfl, rfl, rfl, rfl, rfl, rfl⟩

/-- Claim C4 witness: the scenario theorem at a concrete injective digest. -/
theorem c4_scenario_witness :
    start (fun s => s) (fun c => String.append "#" c) "/home/user" "/tmp/bk"
      (fun _ => false) (fun _ => false)
      ⟨[("/home/user/notes.txt", some "A")], ["/home/user"]⟩
      (some ["/home/user/notes.txt"]) =
      Except.ok
        { ok := true,
          tracked := 1,
          originalState := [("/home/user/notes.txt", "#A")],
          backupPath := some "/tmp/bk",
          backupEntries := [("notes.txt", "A")],
          savedState := some (some "/tmp/bk", [("/home/user/notes.txt", "#A")]) } ∧
    ∃ out, stop (fun s => s) (fun c => String.append "#" c) "/home/user"
        ⟨[("/home/user/notes.txt", some "AB"), ("/home/user/scratch.tmp", some "S")],
          ["/home/user"]⟩
        [("notes.txt", "A")]
        (LoadResult.okState (some "/tmp/bk") [("/home/user/notes.txt", "#A")])
        (some ["/home/user/notes.txt", "/home/user/scratch.tmp"])
        (fun _ => []) (fun _ => []) (fun _ => [])
        (fun _ => false) (fun _ => false) (fun _ => false) false false =
        Except.ok out ∧
      readFile out.fsAfter "/home/user/notes.txt" = some "A" ∧
      isfile out.fsAfter "/home/user/scratch.tmp" = false ∧
      out.removed = 1 ∧ out.reverted = 1 ∧ out.restored = 0 :=
  c4_scenario (fun c => String.append "#" c) (by decide)

/-- After writing `p`, its entry is the written content. -/
theorem fsEntry_setFile_self (fs : FileSys) (p c : String) :
    fsEntry (setFile fs p c) p = some (some c) := by
  unfold setFile fsEntry
  induction fs.files with
  | nil => simp [setEntries, List.find?]
  | cons e rest ih =>
    by_cases he : e.1 == p
    · simp [setEntries, he, List.find?]
    · simp only [setEntries, he, Bool.false_eq_true, if_false, List.find?_cons, he]
      exact ih

/-- Writing `p` leaves every other entry unchanged. -/
theorem fsEntry_setFile_other (fs : FileSys) (p c q : String) (h : q ≠ p) :
    fsEntry (setFile fs p c) q = fsEntry fs q := by
  unfold setFile fsEntry
  have hpq : (p == q) = false := beq_eq_false_iff_ne.mpr fun he => h he.symm
  induction fs.files with
  | nil => simp [setEntries, List.find?, hpq]
  | cons e rest ih =>
    by_cases he : e.1 == p
    · have hep : e.1 = p := by simpa using he
      have heq : (e.1 == q) = false := by rw [hep]; exact hpq
      simp only [setEntries, he, if_true, List.find?_cons, hpq, heq]
    · simp only [setEntries, he, Bool.false_eq_true, if_false, List.find?_cons]
      by_cases heq : e.1 == q
      · simp [heq]
      · simp only [heq, Bool.false_eq_true]
        exact ih

/-- After removing `p`, its entry is gone. -/
theorem fsEntry_deleteFile_self (fs : FileSys) (p : String) :
    fsEntry (deleteFile fs p) p = none := by
  have hf : List.find? (fun e => e.1 == p)
      (List.filter (fun e => !(e.1 == p)) fs.files) = none := by
    rw [List.find?_eq_none]
    intro e he hc
    have h2 := (List.mem_filter.mp he).2
    rw [hc] at h2
    cases h2
  show Option.map Prod.snd (List.find? (fun e => e.1 == p)
    (List.filter (fun e => !(e.1 == p)) fs.files)) = none
  rw [hf]
  rfl

/-- Removing `p` leaves every other entry unchanged. -/
theorem fsEntry_deleteFile_other (fs : FileSys) (p q : String) (h : q ≠ p) :
    fsEntry (deleteFile fs p) q = fsEntry fs q := by
  unfold deleteFile fsEntry
  induction fs.files with
  | nil => rfl
  | cons e rest ih =>
    by_cases hep : e.1 == p
    · have he : e.1 = p := by simpa using hep
      have heq : (e.1 == q) = false :=
        beq_eq_false_iff_ne.mpr (by rw [he]; exact fun hh => h hh.symm)
      simp only [List.filter_cons, hep, Bool.not_true, Bool.false_eq_true, if_false,
        List.find?_cons, heq]
      exact ih
    · simp only [List.filter_cons, hep, Bool.not_false, if_true, List.find?_cons]
      by_cases heq : e.1 == q
      · simp [heq]
      · simp only [heq, Bool.false_eq_true]
        exact ih

/-- The filter consults the filesystem only through `os.path.isfile` on the
normalized path. -/
theorem shouldTrack_congr (norm : String → String) (home : String)
    (fsA fsB : FileSys) (f : String)
    (h : isfile fsA (norm f) = isfile fsB (norm f)) :
    shouldTrackFile norm home fsA f = shouldTrackFile norm home fsB f := by
  simp only [shouldTrackFile, h]

/-- The fingerprint depends on the filesystem only through the entry of the
hashed path. -/
theorem calculateFileHash_congr (H : String → String) (fsA fsB : FileSys)
    (p : String) (h : fsEntry fsA p = fsEntry fsB p) :
    calculateFileHash H fsA p = calculateFileHash H fsB p := by
  simp only [calculateFileHash, readFile, h]

/-- Membership in a set with one extra element, for a different element. -/
theorem contains_cons_ne (l : List String) (a b : String) (h : b ≠ a) :
    (a :: l).contains b = l.contains b := by
  simp only [List.contains_cons, beq_eq_false_iff_ne.mpr h, Bool.false_or]

/-- The deleted-files apply loop only asks whether each relative path is
preserved: preserved sets agreeing on every processed key act identically. -/
theorem applyDeleted_preserved_congr (home : String) (bp : Option String)
    (backupFiles : List (String × String)) (p1 p2 : List String)
    (restoreFail : String → Bool) :
    ∀ (l : List (String × String)) (fs : FileSys) (n : Nat),
      (∀ e ∈ l, p2.contains (relpath home e.1) = p1.contains (relpath home e.1)) →
      applyDeleted home bp backupFiles p2 restoreFail l fs n =
        applyDeleted home bp backupFiles p1 restoreFail l fs n := by
  intro l
  induction l with
  | nil => intro fs n _; rfl
  | cons e rest ih =>
    intro fs n h
    have he := h e (List.mem_cons_self e rest)
    have hrest := fun e2 he2 => h e2 (List.mem_cons_of_mem e he2)
    by_cases h1 : pexists fs e.1
    · simp only [applyDeleted, h1, if_true]
      exact ih fs n hrest
    · simp only [applyDeleted, h1, Bool.false_eq_true, if_false, he]
      by_cases h2 : p1.contains (relpath home e.1)
      · simp only [h2, if_true]
        exact ih fs n hrest
      · simp only [h2, Bool.false_eq_true, if_false]
        cases bp
        · rfl
        · by_cases h3 : restoreFail e.1
          · simp only [h3, if_true]
            exact ih fs n hrest
          · simp only [h3, Bool.false_eq_true, if_false]
            cases lookupStr backupFiles (relpath home e.1)
            · exact ih fs n hrest
            · exact ih _ _ hrest

/-- Core of the preservation-independence analysis: run the new/modified
apply loop twice, once with preserved set `p1` and once with
`relpath home g :: p1` (the user additionally preserved `g`, a path that is
not a snapshot key), over filesystems that agree everywhere except possibly
at `g`.  Provided no other processed path shares `g`'s relative path, the
two runs succeed and their results again agree off `g`, with identical
revert counters. -/
theorem applyNewMod_preserve_new (norm H : String → String) (home bpv : String)
    (backupFiles snap : List (String × String)) (p1 : List String) (g : String)
    (removeFail revertFail : String → Bool) (hg : lookupStr snap g = none) :
    ∀ (l : List String),
      (∀ f ∈ l, relpath home (norm f) = relpath home g → norm f = g) →
      ∀ (fsA fsB : FileSys) (rem1 rem2 rev : Nat),
      (∀ q, q ≠ g → fsEntry fsA q = fsEntry fsB q) →
      ∃ fsA2 rem1b revb fsB2 rem2b revb2,
        applyNewMod norm H home (some bpv) backupFiles snap p1 removeFail revertFail
          l fsA rem1 rev = Except.ok (fsA2, rem1b, revb) ∧
        applyNewMod norm H home (some bpv) backupFiles snap (relpath home g :: p1)
          removeFail revertFail l fsB rem2 rev = Except.ok (fsB2, rem2b, revb2) ∧
        (∀ q, q ≠ g → fsEntry fsA2 q = fsEntry fsB2 q) ∧ revb = revb2 := by
  intro l
  induction l with
  | nil =>
    intro _ fsA fsB rem1 rem2 rev hagree
    exact ⟨fsA, rem1, rev, fsB, rem2, rev, rfl, rfl, hagree, rfl⟩
  | cons f rest ih =>
    intro hf fsA fsB rem1 rem2 rev hagree
    have hfrest : ∀ x ∈ rest, relpath home (norm x) = relpath home g → norm x = g :=
      fun x hx => hf x (List.mem_cons_of_mem f hx)
    by_cases hng : norm f = g
    · have hrun2 : applyNewMod norm H home (some bpv) backupFiles snap
          (relpath home g :: p1) removeFail revertFail (f :: rest) fsB rem2 rev =
          applyNewMod norm H home (some bpv) backupFiles snap (relpath home g :: p1)
            removeFail revertFail rest fsB rem2 rev := by
        by_cases hstB : shouldTrackFile norm home fsB f
        · simp only [applyNewMod, hstB, if_true, hng, hg, List.contains_cons,
            beq_self_eq_true, Bool.true_or, if_true]
        · simp only [applyNewMod, hstB, Bool.false_eq_true, if_false]
      by_cases hstA : shouldTrackFile norm home fsA f
      · by_cases hp : p1.contains (relpath home g)
        · have hrun1 : applyNewMod norm H home (some bpv) backupFiles snap p1
              removeFail revertFail (f :: rest) fsA rem1 rev =
              applyNewMod norm H home (some bpv) backupFiles snap p1
                removeFail revertFail rest fsA rem1 rev := by
            simp only [applyNewMod, hstA, if_true, hng, hg, hp, if_true]
          obtain ⟨fsA2, a1, b1, fsB2, a2, b2, h1, h2, h3, h4⟩ :=
            ih hfrest fsA fsB rem1 rem2 rev hagree
          exact ⟨fsA2, a1, b1, fsB2, a2, b2, by rw [hrun1]; exact h1,
            by rw [hrun2]; exact h2, h3, h4⟩
        · by_cases hrm : removeFail g
          · have hrun1 : applyNewMod norm H home (some bpv) backupFiles snap p1
                removeFail revertFail (f :: rest) fsA rem1 rev =
                applyNewMod norm H home (some bpv) backupFiles snap p1
                  removeFail revertFail rest fsA rem1 rev := by
              simp only [applyNewMod, hstA, if_true, hng, hg, hp,
                Bool.false_eq_true, if_false, hrm]
            obtain ⟨fsA2, a1, b1, fsB2, a2, b2, h1, h2, h3, h4⟩ :=
              ih hfrest fsA fsB rem1 rem2 rev hagree
            exact ⟨fsA2, a1, b1, fsB2, a2, b2, by rw [hrun1]; exact h1,
              by rw [hrun2]; exact h2, h3, h4⟩
          · have hrun1 : applyNewMod norm H home (some bpv) backupFiles snap p1
                removeFail revertFail (f :: rest) fsA rem1 rev =
                applyNewMod norm H home (some bpv) backupFiles snap p1
                  removeFail revertFail rest (deleteFile fsA g) (rem1 + 1) rev := by
              simp only [applyNewMod, hstA, if_true, hng, hg, hp,
                Bool.false_eq_true, if_false, hrm]
            have hagree2 : ∀ q, q ≠ g →
                fsEntry (deleteFile fsA g) q = fsEntry fsB q := by
              intro q hq
              rw [fsEntry_deleteFile_other fsA g q hq]
              exact hagree q hq
            obtain ⟨fsA2, a1, b1, fsB2, a2, b2, h1, h2, h3, h4⟩ :=
              ih hfrest (deleteFile fsA g) fsB (rem1 + 1) rem2 rev hagree2
            exact ⟨fsA2, a1, b1, fsB2, a2, b2, by rw [hrun1]; exact h1,
              by rw [hrun2]; exact h2, h3, h4⟩
      · have hrun1 : applyNewMod norm H home (some bpv) backupFiles snap p1
            removeFail revertFail (f :: rest) fsA rem1 rev =
            applyNewMod norm H home (some bpv) backupFiles snap p1
              removeFail revertFail rest fsA rem1 rev := by
          simp only [applyNewMod, hstA, Bool.false_eq_true, if_false]
        obtain ⟨fsA2, a1, b1, fsB2, a2, b2, h1, h2, h3, h4⟩ :=
          ih hfrest fsA fsB rem1 rem2 rev hagree
        exact ⟨fsA2, a1, b1, fsB2, a2, b2, by rw [hrun1]; exact h1,
          by rw [hrun2]; exact h2, h3, h4⟩
    · have hisf : isfile fsA (norm f) = isfile fsB (norm f) := by
        unfold isfile
        rw [hagree (norm f) hng]
      have hst : shouldTrackFile norm home fsA f = shouldTrackFile norm home fsB f :=
        shouldTrack_congr norm home fsA fsB f hisf
      have hrel : relpath home (norm f) ≠ relpath home g :=
        fun hr => hng (hf f (List.mem_cons_self f rest) hr)
      have hcont : (relpath home g :: p1).contains (relpath home (norm f)) =
          p1.contains (relpath home (norm f)) :=
        contains_cons_ne p1 (relpath home g) (relpath home (norm f)) hrel
      by_cases hstA : shouldTrackFile norm home fsA f
      · have hstB : shouldTrackFile norm home fsB f = true := hst ▸ hstA
        cases hlk : lookupStr snap (norm f) with
        | none =>
          by_cases hp : p1.contains (relpath home (norm f))
          · have hrun1 : applyNewMod norm H home (some bpv) backupFiles snap p1
                removeFail revertFail (f :: rest) fsA rem1 rev =
                applyNewMod norm H home (some bpv) backupFiles snap p1
                  removeFail revertFail rest fsA rem1 rev := by
              simp only [applyNewMod, hstA, if_true, hlk, hp, if_true]
            have hrun2 : applyNewMod norm H home (some bpv) backupFiles snap
                (relpath home g :: p1) removeFail revertFail (f :: rest) fsB rem2 rev =
                applyNewMod norm H home (some bpv) backupFiles snap
                  (relpath home g :: p1) removeFail revertFail rest fsB rem2 rev := by
              simp only [applyNewMod, hstB, if_true, hlk, hcont, hp, if_true]
            obtain ⟨fsA2, a1, b1, fsB2, a2, b2, h1, h2, h3, h4⟩ :=
              ih hfrest fsA fsB rem1 rem2 rev hagree
            exact ⟨fsA2, a1, b1, fsB2, a2, b2, by rw [hrun1]; exact h1,
              by rw [hrun2]; exact h2, h3, h4⟩
          · by_cases hrm : removeFail (norm f)
            · have hrun1 : applyNewMod norm H home (some bpv) backupFiles snap p1
                  removeFail revertFail (f :: rest) fsA rem1 rev =
                  applyNewMod norm H home (some bpv) backupFiles snap p1
                    removeFail revertFail rest fsA rem1 rev := by
                simp only [applyNewMod, hstA, if_true, hlk, hp,
                  Bool.false_eq_true, if_false, hrm]
              have hrun2 : applyNewMod norm H home (some bpv) backupFiles snap
                  (relpath home g :: p1) removeFail revertFail (f :: rest) fsB rem2
                  rev =
                  applyNewMod norm H home (some bpv) backupFiles snap
                    (relpath home g :: p1) removeFail revertFail rest fsB rem2 rev := by
                simp only [applyNewMod, hstB, if_true, hlk, hcont, hp,
                  Bool.false_eq_true, if_false, hrm]
              obtain ⟨fsA2, a1, b1, fsB2, a2, b2, h1, h2, h3, h4⟩ :=
                ih hfrest fsA fsB rem1 rem2 rev hagree
              exact ⟨fsA2, a1, b1, fsB2, a2, b2, by rw [hrun1]; exact h1,
                by rw [hrun2]; exact h2, h3, h4⟩
            · have hrun1 : applyNewMod norm H home (some bpv) backupFiles snap p1
                  removeFail revertFail (f :: rest) fsA rem1 rev =
                  applyNewMod norm H home (some bpv) backupFiles snap p1
                    removeFail revertFail rest (deleteFile fsA (norm f)) (rem1 + 1)
                    rev := by
                simp only [applyNewMod, hstA, if_true, hlk, hp,
                  Bool.false_eq_true, if_false, hrm]
              have hrun2 : applyNewMod norm H home (some bpv) backupFiles snap
                  (relpath home g :: p1) removeFail revertFail (f :: rest) fsB rem2
                  rev =
                  applyNewMod norm H home (some bpv) backupFiles snap
                    (relpath home g :: p1) removeFail revertFail rest
                    (deleteFile fsB (norm f)) (rem2 + 1) rev := by
                simp only [applyNewMod, hstB, if_true, hlk, hcont, hp,
                  Bool.false_eq_true, if_false, hrm]
              have hagree2 : ∀ q, q ≠ g →
                  fsEntry (deleteFile fsA (norm f)) q =
                    fsEntry (deleteFile fsB (norm f)) q := by
                intro q hq
                by_cases hqn : q = norm f
                · rw [hqn, fsEntry_deleteFile_self, fsEntry_deleteFile_self]
                · rw [fsEntry_deleteFile_other fsA (norm f) q hqn,
                    fsEntry_deleteFile_other fsB (norm f) q hqn]
                  exact hagree q hq
              obtain ⟨fsA2, a1, b1, fsB2, a2, b2, h1, h2, h3, h4⟩ :=
                ih hfrest (deleteFile fsA (norm f)) (deleteFile fsB (norm f))
                  (rem1 + 1) (rem2 + 1) rev hagree2
              exact ⟨fsA2, a1, b1, fsB2, a2, b2, by rw [hrun1]; exact h1,
                by rw [hrun2]; exact h2, h3, h4⟩
        | some oh =>
          have hch : calculateFileHash H fsA (norm f) =
              calculateFileHash H fsB (norm f) :=
            calculateFileHash_congr H fsA fsB (norm f) (hagree (norm f) hng)
          by_cases hq4 : (calculateFileHash H fsA (norm f) == oh) = true
          · have hq4B : (calculateFileHash H fsB (norm f) == oh) = true := hch ▸ hq4
            have hrun1 : applyNewMod norm H home (some bpv) backupFiles snap p1
                removeFail revertFail (f :: rest) fsA rem1 rev =
                applyNewMod norm H home (some bpv) backupFiles snap p1
                  removeFail revertFail rest fsA rem1 rev := by
              simp only [applyNewMod, hstA, if_true, hlk, hq4, if_true]
            have hrun2 : applyNewMod norm H home (some bpv) backupFiles snap
                (relpath home g :: p1) removeFail revertFail (f :: rest) fsB rem2
                rev =
                applyNewMod norm H home (some bpv) backupFiles snap
                  (relpath home g :: p1) removeFail revertFail rest fsB rem2 rev := by
              simp only [applyNewMod, hstB, if_true, hlk, hq4B, if_true]
            obtain ⟨fsA2, a1, b1, fsB2, a2, b2, h1, h2, h3, h4⟩ :=
              ih hfrest fsA fsB rem1 rem2 rev hagree
            exact ⟨fsA2, a1, b1, fsB2, a2, b2, by rw [hrun1]; exact h1,
              by rw [hrun2]; exact h2, h3, h4⟩
          · have hq4B : (calculateFileHash H fsB (norm f) == oh) = false := by
              rw [← hch]
              exact Bool.eq_false_iff.mpr hq4
            have hq4A : (calculateFileHash H fsA (norm f) == oh) = false :=
              Bool.eq_false_iff.mpr hq4
            by_cases hp : p1.contains (relpath home (norm f))
            · have hrun1 : applyNewMod norm H home (some bpv) backupFiles snap p1
                  removeFail revertFail (f :: rest) fsA rem1 rev =
                  applyNewMod norm H home (some bpv) backupFiles snap p1
                    removeFail revertFail rest fsA rem1 rev := by
                simp only [applyNewMod, hstA, if_true, hlk, hq4A,
                  Bool.false_eq_true, if_false, hp, if_true]
              have hrun2 : applyNewMod norm H home (some bpv) backupFiles snap
                  (relpath home g :: p1) removeFail revertFail (f :: rest) fsB rem2
                  rev =
                  applyNewMod norm H home (some bpv) backupFiles snap
                    (relpath home g :: p1) removeFail revertFail rest fsB rem2 rev := by
                simp only [applyNewMod, hstB, if_true, hlk, hq4B,
                  Bool.false_eq_true, if_false, hcont, hp, if_true]
              obtain ⟨fsA2, a1, b1, fsB2, a2, b2, h1, h2, h3, h4⟩ :=
                ih hfrest fsA fsB rem1 rem2 rev hagree
              exact ⟨fsA2, a1, b1, fsB2, a2, b2, by rw [hrun1]; exact h1,
                by rw [hrun2]; exact h2, h3, h4⟩
            · by_cases hrv : revertFail (norm f)
              · have hrun1 : applyNewMod norm H home (some bpv) backupFiles snap p1
                    removeFail revertFail (f :: rest) fsA rem1 rev =
                    applyNewMod norm H home (some bpv) backupFiles snap p1
                      removeFail revertFail rest fsA rem1 rev := by
                  simp only [applyNewMod, hstA, if_true, hlk, hq4A,
                    Bool.false_eq_true, if_false, hp, hrv, if_true]
                have hrun2 : applyNewMod norm H home (some bpv) backupFiles snap
                    (relpath home g :: p1) removeFail revertFail (f :: rest) fsB rem2
                    rev =
                    applyNewMod norm H home (some bpv) backupFiles snap
                      (relpath home g :: p1) removeFail revertFail rest fsB rem2
                      rev := by
                  simp only [applyNewMod, hstB, if_true, hlk, hq4B,
                    Bool.false_eq_true, if_false, hcont, hp, hrv, if_true]
                obtain ⟨fsA2, a1, b1, fsB2, a2, b2, h1, h2, h3, h4⟩ :=
                  ih hfrest fsA fsB rem1 rem2 rev hagree
                exact ⟨fsA2, a1, b1, fsB2, a2, b2, by rw [hrun1]; exact h1,
                  by rw [hrun2]; exact h2, h3, h4⟩
              · cases hbk : lookupStr backupFiles (relpath home (norm f)) with
                | none =>
                  have hrun1 : applyNewMod norm H home (some bpv) backupFiles snap p1
                      removeFail revertFail (f :: rest) fsA rem1 rev =
                      applyNewMod norm H home (some bpv) backupFiles snap p1
                        removeFail revertFail rest fsA rem1 rev := by
                    simp only [applyNewMod, hstA, if_true, hlk, hq4A,
                      Bool.false_eq_true, if_false, hp, hrv, hbk]
                  have hrun2 : applyNewMod norm H home (some bpv) backupFiles snap
                      (relpath home g :: p1) removeFail revertFail (f :: rest) fsB
                      rem2 rev =
                      applyNewMod norm H home (some bpv) backupFiles snap
                        (relpath home g :: p1) removeFail revertFail rest fsB rem2
                        rev := by
                    simp only [applyNewMod, hstB, if_true, hlk, hq4B,
                      Bool.false_eq_true, if_false, hcont, hp, hrv, hbk]
                  obtain ⟨fsA2, a1, b1, fsB2, a2, b2, h1, h2, h3, h4⟩ :=
                    ih hfrest fsA fsB rem1 rem2 rev hagree
                  exact ⟨fsA2, a1, b1, fsB2, a2, b2, by rw [hrun1]; exact h1,
                    by rw [hrun2]; exact h2, h3, h4⟩
                | some c =>
                  have hrun1 : applyNewMod norm H home (some bpv) backupFiles snap p1
                      removeFail revertFail (f :: rest) fsA rem1 rev =
                      applyNewMod norm H home (some bpv) backupFiles snap p1
                        removeFail revertFail rest (setFile fsA (norm f) c) rem1
                        (rev + 1) := by
                    simp only [applyNewMod, hstA, if_true, hlk, hq4A,
                      Bool.false_eq_true, if_false, hp, hrv, hbk]
                  have hrun2 : applyNewMod norm H home (some bpv) backupFiles snap
                      (relpath home g :: p1) removeFail revertFail (f :: rest) fsB
                      rem2 rev =
                      applyNewMod norm H home (some bpv) backupFiles snap
                        (relpath home g :: p1) removeFail revertFail rest
                        (setFile fsB (norm f) c) rem2 (rev + 1) := by
                    simp only [applyNewMod, hstB, if_true, hlk, hq4B,
                      Bool.false_eq_true, if_false, hcont, hp, hrv, hbk]
                  have hagree2 : ∀ q, q ≠ g →
                      fsEntry (setFile fsA (norm f) c) q =
                        fsEntry (setFile fsB (norm f) c) q := by
                    intro q hq
                    by_cases hqn : q = norm f
                    · rw [hqn, fsEntry_setFile_self, fsEntry_setFile_self]
                    · rw [fsEntry_setFile_other fsA (norm f) c q hqn,
                        fsEntry_setFile_other fsB (norm f) c q hqn]
                      exact hagree q hq
                  obtain ⟨fsA2, a1, b1, fsB2, a2, b2, h1, h2, h3, h4⟩ :=
                    ih hfrest (setFile fsA (norm f) c) (setFile fsB (norm f) c)
                      rem1 rem2 (rev + 1) hagree2
                  exact ⟨fsA2, a1, b1, fsB2, a2, b2, by rw [hrun1]; exact h1,
                    by rw [hrun2]; exact h2, h3, h4⟩
      · have hstB : shouldTrackFile norm home fsB f = false := by
          rw [← hst]
          exact Bool.eq_false_iff.mpr hstA
        have hstA2 : shouldTrackFile norm home fsA f = false :=
          Bool.eq_false_iff.mpr hstA
        have hrun1 : applyNewMod norm H home (some bpv) backupFiles snap p1
            removeFail revertFail (f :: rest) fsA rem1 rev =
            applyNewMod norm H home (some bpv) backupFiles snap p1
              removeFail revertFail rest fsA rem1 rev := by
          simp only [applyNewMod, hstA2, Bool.false_eq_true, if_false]
        have hrun2 : applyNewMod norm H home (some bpv) backupFiles snap
            (relpath home g :: p1) removeFail revertFail (f :: rest) fsB rem2 rev =
            applyNewMod norm H home (some bpv) backupFiles snap
              (relpath home g :: p1) removeFail revertFail rest fsB rem2 rev := by
          simp only [applyNewMod, hstB, Bool.false_eq_true, if_false]
        obtain ⟨fsA2, a1, b1, fsB2, a2, b2, h1, h2, h3, h4⟩ :=
          ih hfrest fsA fsB rem1 rem2 rev hagree
        exact ⟨fsA2, a1, b1, fsB2, a2, b2, by rw [hrun1]; exact h1,
          by rw [hrun2]; exact h2, h3, h4⟩

/-- With a string backup path, the apply/cleanup tail always returns. -/
theorem stopApply_some_ok (norm H : String → String) (home bpv : String)
    (fs : FileSys) (backupFiles snap : List (String × String))
    (currentFiles newL modL delL preserved : List String)
    (restoreFail removeFail revertFail : String → Bool)
    (stateRemoveFail rmtreeFail : Bool) :
    ∃ out, stopApply norm H home fs backupFiles (some bpv) snap currentFiles
      newL modL delL preserved restoreFail removeFail revertFail
      stateRemoveFail rmtreeFail = Except.ok out := by
  obtain ⟨⟨fs1, restored⟩, h1⟩ :=
    applyDeleted_some_ok home bpv backupFiles preserved restoreFail snap fs 0
  obtain ⟨⟨fs2, removed, reverted⟩, h2⟩ :=
    applyNewMod_some_ok norm H home bpv backupFiles snap preserved removeFail
      revertFail currentFiles fs1 0 0
  simp only [stopApply, h1, h2]
  cases stateRemoveFail
  · exact ⟨_, rfl⟩
  · exact ⟨_, rfl⟩

/-- Apply/cleanup tail of `stop`, run once with preserved set `p1` and once
with `relpath home g :: p1` for a path `g` outside the snapshot whose
relative path no snapshot key and no differently-normalized current file
shares: every path other than `g` receives identical treatment, and the
restored and reverted counters agree. -/
theorem stopApply_preserve_new (norm H : String → String) (home bpv : String)
    (fs : FileSys) (backupFiles snap : List (String × String))
    (currentFiles newL modL delL p1 : List String) (g : String)
    (restoreFail removeFail revertFail : String → Bool)
    (stateRemoveFail rmtreeFail : Bool)
    (hg : lookupStr snap g = none)
    (hkeys : ∀ e ∈ snap, relpath home e.1 ≠ relpath home g)
    (hfiles : ∀ f ∈ currentFiles,
      relpath home (norm f) = relpath home g → norm f = g) :
    ∃ o1 o2,
      stopApply norm H home fs backupFiles (some bpv) snap currentFiles
        newL modL delL p1 restoreFail removeFail revertFail
        stateRemoveFail rmtreeFail = Except.ok o1 ∧
      stopApply norm H home fs backupFiles (some bpv) snap currentFiles
        newL modL delL (relpath home g :: p1) restoreFail removeFail revertFail
        stateRemoveFail rmtreeFail = Except.ok o2 ∧
      (∀ q, q ≠ g → fsEntry o1.fsAfter q = fsEntry o2.fsAfter q) ∧
      o1.restored = o2.restored ∧ o1.reverted = o2.reverted := by
  obtain ⟨⟨fs1, restored⟩, hd1⟩ :=
    applyDeleted_some_ok home bpv backupFiles p1 restoreFail snap fs 0
  have hd2 : applyDeleted home (some bpv) backupFiles (relpath home g :: p1)
      restoreFail snap fs 0 = Except.ok (fs1, restored) := by
    rw [applyDeleted_preserved_congr home (some bpv) backupFiles p1
      (relpath home g :: p1) restoreFail snap fs 0
      (fun e he => contains_cons_ne p1 (relpath home g) (relpath home e.1)
        (hkeys e he))]
    exact hd1
  obtain ⟨fsA2, rem1b, revb, fsB2, rem2b, revb2, h1, h2, h3, h4⟩ :=
    applyNewMod_preserve_new norm H home bpv backupFiles snap p1 g removeFail
      revertFail hg currentFiles hfiles fs1 fs1 0 0 0 (fun q _ => rfl)
  simp only [stopApply, hd1, hd2, h1, h2]
  cases stateRemoveFail
  · exact ⟨_, _, rfl, rfl, h3, rfl, h4⟩
  · exact ⟨_, _, rfl, rfl, h3, rfl, h4⟩

/-- Claim C2: two `reconcile()` runs that differ only in whether the path
`g` — classified (at most) as new, since it is not a snapshot key — was
chosen for preservation under the "new" category apply identical filesystem
actions to every other path (their final filesystems agree everywhere
except at `g`) and identical restore/revert treatment to the snapshot
entries; in particular no entry of the modified or deleted categories can
share `g`'s relative path under the stated well-formedness of paths, so no
other entry's action can change.  Hypotheses: `g` is not a snapshot key, no
snapshot key shares `g`'s home-relative path, and any current file whose
normalized form shares `g`'s relative path IS `g` (true of real runs, where
distinct canonical absolute paths have distinct relative paths). -/
theorem c2_preservation_independent (norm H : String → String) (home bpv : String)
    (fs : FileSys) (backupFiles snap : List (String × String))
    (files : List String) (g : String)
    (decideNew decideMod decideDel : List String → List String)
    (restoreFail removeFail revertFail : String → Bool)
    (stateRemoveFail rmtreeFail : Bool)
    (hg : lookupStr snap g = none)
    (hkeys : ∀ e ∈ snap, relpath home e.1 ≠ relpath home g)
    (hfiles : ∀ f ∈ files, relpath home (norm f) = relpath home g → norm f = g) :
    ∃ o1 o2,
      stop norm H home fs backupFiles (LoadResult.okState (some bpv) snap)
        (some files) decideNew decideMod decideDel restoreFail removeFail
        revertFail stateRemoveFail rmtreeFail = Except.ok o1 ∧
      stop norm H home fs backupFiles (LoadResult.okState (some bpv) snap)
        (some files) (fun l => relpath home g :: decideNew l) decideMod decideDel
        restoreFail removeFail revertFail stateRemoveFail rmtreeFail =
        Except.ok o2 ∧
      (∀ q, q ≠ g → fsEntry o1.fsAfter q = fsEntry o2.fsAfter q) ∧
      o1.restored = o2.restored ∧ o1.reverted = o2.reverted := by
  simp only [stop]
  rcases hcl : classifyNewMod norm H home fs snap files with ⟨newL, modL⟩
  simp only [hcl]
  by_cases hnew : newL.isEmpty
  · simp only [hnew, if_true]
    obtain ⟨out, hout⟩ := stopApply_some_ok norm H home bpv fs backupFiles snap
      files newL modL (classifyDeleted home fs snap)
      ([] ++ ((if modL.isEmpty then [] else decideMod modL) ++
        (if (classifyDeleted home fs snap).isEmpty then []
          else decideDel (classifyDeleted home fs snap))))
      restoreFail removeFail revertFail stateRemoveFail rmtreeFail
    refine ⟨out, out, ?_, ?_, fun q _ => rfl, rfl, rfl⟩ <;> exact hout
  · have hnew2 : newL.isEmpty = false := Bool.eq_false_iff.mpr hnew
    simp only [hnew2, Bool.false_eq_true, if_false, List.cons_append]
    exact stopApply_preserve_new norm H home bpv fs backupFiles snap files newL modL
      (classifyDeleted home fs snap)
      ((decideNew newL ++ (if modL.isEmpty then [] else decideMod modL)) ++
        (if (classifyDeleted home fs snap).isEmpty then []
          else decideDel (classifyDeleted home fs snap)))
      g restoreFail removeFail revertFail stateRemoveFail rmtreeFail hg hkeys hfiles

/-- Claim C2 witness: a concrete run — snapshot holds `notes.txt`, the new
file `scratch.tmp` is additionally preserved in the second run — applied
through the independence theorem. -/
theorem c2_preservation_independent_witness :
    ∃ o1 o2,
      stop (fun s => s) (fun c => String.append "#" c) "/home/user"
        ⟨[("/home/user/notes.txt", some "A"), ("/home/user/scratch.tmp", some "S")],
          ["/home/user"]⟩
        [("notes.txt", "A")]
        (LoadResult.okState (some "/tmp/bk") [("/home/user/notes.txt", "#A")])
        (some ["/home/user/notes.txt", "/home/user/scratch.tmp"])
        (fun _ => []) (fun _ => []) (fun _ => [])
        (fun _ => false) (fun _ => false) (fun _ => false) false false =
        Except.ok o1 ∧
      stop (fun s => s) (fun c => String.append "#" c) "/home/user"
        ⟨[("/home/user/notes.txt", some "A"), ("/home/user/scratch.tmp", some "S")],
          ["/home/user"]⟩
        [("notes.txt", "A")]
        (LoadResult.okState (some "/tmp/bk") [("/home/user/notes.txt", "#A")])
        (some ["/home/user/notes.txt", "/home/user/scratch.tmp"])
        (fun l => relpath "/home/user" "/home/user/scratch.tmp" :: (fun _ => ([] : List String)) l)
        (fun _ => []) (fun _ => [])
        (fun _ => false) (fun _ => false) (fun _ => false) false false =
        Except.ok o2 ∧
      (∀ q, q ≠ "/home/user/scratch.tmp" →
        fsEntry o1.fsAfter q = fsEntry o2.fsAfter q) ∧
      o1.restored = o2.restored ∧ o1.reverted = o2.reverted :=
  c2_preservation_independent (fun s => s) (fun c => String.append "#" c)
    "/home/user" "/tmp/bk"
    ⟨[("/home/user/notes.txt", some "A"), ("/home/user/scratch.tmp", some "S")],
      ["/home/user"]⟩
    [("notes.txt", "A")] [("/home/user/notes.txt", "#A")]
    ["/home/user/notes.txt", "/home/user/scratch.tmp"] "/home/user/scratch.tmp"
    (fun _ => []) (fun _ => []) (fun _ => [])
    (fun _ => false) (fun _ => false) (fun _ => false) false false
    (by decide) (by decide) (by decide)
